import Mathlib

/-!
Verification of the plantangenet clock-synchronization core.

This file shallowly embeds the Rust sources:
  * `src/lib.rs` — the `TickMessage` / `AccumulatorData` wire records (serde
    `Deserialize`), `ClockState`, and the shared mutex-guarded store;
  * `src/conductor/state.rs` — `update_clock` / `read_clock`;
  * `src/conductor/tick.rs` — `handle_tick` (serde_json decode, then write);
  * `src/nats/listener.rs` — the subscription loop, modelled as a fold over the
    list of arriving payloads;
  * `src/main.rs` — the initial store (a fresh, unpoisoned mutex around
    `ClockState::default()`).

Machine numbers: the program performs no arithmetic on the decoded numbers, it
only stores and copies them, so JSON numbers are modelled as exact rationals
together with the syntactic information serde_json keeps (whether the literal
was written in integer form).  `Instant::now()` is modelled by threading an
explicit `Nat`-valued current time into each operation.  Mutex poisoning is
modelled by an explicit boolean on the store: `lock()` fails exactly when the
flag is set, which is how the `if let Ok` / `.ok()` branches in the source
behave.
-/

namespace Plantangenet

/-- JSON values in the serde_json data model.  A number carries the exact
rational value of the literal plus a flag recording whether the literal was
syntactically an integer (no fraction part, no exponent) — serde_json parses
integer literals on the integer path and everything else on the float path,
and integer-typed struct fields only accept the former. -/
inductive Json where
  | null : Json
  | bool (b : Bool) : Json
  | num (isInt : Bool) (val : ℚ) : Json
  | str (s : String) : Json
  | arr (elems : List Json) : Json
  | obj (fields : List (String × Json)) : Json

/-- Whether a `Json` value is a string. -/
def Json.isStr : Json → Bool
  | .str _ => true
  | _ => false

/-- Whether a `Json` value is a number. -/
def Json.isNum : Json → Bool
  | .num _ _ => true
  | _ => false

/-- Whether a `Json` value is a boolean. -/
def Json.isBool : Json → Bool
  | .bool _ => true
  | _ => false

/-- Whether a `Json` value is `null`. -/
def Json.isNull : Json → Bool
  | .null => true
  | _ => false

/-- Whether a fallible computation succeeded. -/
def okB {α : Type} (e : Except String α) : Bool :=
  match e with
  | .ok _ => true
  | .error _ => false

instance {α : Type} [DecidableEq α] : DecidableEq (Except String α) := fun a b =>
  match a, b with
  | .ok x, .ok y =>
    if h : x = y then .isTrue (by rw [h]) else .isFalse (by intro hc; cases hc; exact h rfl)
  | .error x, .error y =>
    if h : x = y then .isTrue (by rw [h]) else .isFalse (by intro hc; cases hc; exact h rfl)
  | .ok _, .error _ => .isFalse (by intro hc; cases hc)
  | .error _, .ok _ => .isFalse (by intro hc; cases hc)

@[simp] theorem okB_ok {α : Type} (a : α) : okB (.ok a) = true := rfl

@[simp] theorem okB_error {α : Type} (e : String) : okB (.error e : Except String α) = false := rfl

@[simp] theorem except_bind_ok {α β : Type} (a : α) (f : α → Except String β) :
    (Except.ok a >>= f) = f a := rfl

@[simp] theorem except_bind_error {α β : Type} (e : String) (f : α → Except String β) :
    ((Except.error e : Except String α) >>= f) = .error e := rfl

/-- The opening-brace character, `U+007B`. -/
def lbrace : Char := Char.ofNat 123

/-- The closing-brace character, `U+007D`. -/
def rbrace : Char := Char.ofNat 125

/-- JSON insignificant whitespace, as accepted by serde_json. -/
def skipWs : List Char → List Char
  | [] => []
  | c :: cs => if c = ' ' ∨ c = '\n' ∨ c = '\r' ∨ c = '\t' then skipWs cs else c :: cs

/-- Numeric value of a hexadecimal digit. -/
def hexVal (c : Char) : Option Nat :=
  if '0' ≤ c ∧ c ≤ '9' then some (c.toNat - 48)
  else if 'a' ≤ c ∧ c ≤ 'f' then some (c.toNat - 97 + 10)
  else if 'A' ≤ c ∧ c ≤ 'F' then some (c.toNat - 65 + 10)
  else none

/-- Numeric value of a decimal digit. -/
def digitVal (c : Char) : Option Nat :=
  if '0' ≤ c ∧ c ≤ '9' then some (c.toNat - 48) else none

/-- Body of a JSON string, after the opening quote; serde_json rejects raw
control characters and malformed escapes. -/
def parseStringRest : List Char → List Char → Except String (String × List Char)
  | [], _ => .error "unexpected end of input in string"
  | '"' :: rest, acc => .ok (String.mk acc.reverse, rest)
  | '\\' :: cs, acc =>
    match cs with
    | [] => .error "unexpected end of input in escape"
    | c :: rest =>
      if c = '"' then parseStringRest rest ('"' :: acc)
      else if c = '\\' then parseStringRest rest ('\\' :: acc)
      else if c = '/' then parseStringRest rest ('/' :: acc)
      else if c = 'n' then parseStringRest rest ('\n' :: acc)
      else if c = 't' then parseStringRest rest ('\t' :: acc)
      else if c = 'r' then parseStringRest rest ('\r' :: acc)
      else if c = 'b' then parseStringRest rest (Char.ofNat 8 :: acc)
      else if c = 'f' then parseStringRest rest (Char.ofNat 12 :: acc)
      else if c = 'u' then
        match rest with
        | h1 :: h2 :: h3 :: h4 :: rest2 =>
          match hexVal h1, hexVal h2, hexVal h3, hexVal h4 with
          | some a, some b, some c2, some d =>
            parseStringRest rest2 (Char.ofNat (((a * 16 + b) * 16 + c2) * 16 + d) :: acc)
          | _, _, _, _ => .error "invalid unicode escape"
        | _ => .error "unexpected end of input in unicode escape"
      else .error "invalid escape"
  | c :: rest, acc =>
    if c.toNat < 32 then .error "control character in string"
    else parseStringRest rest (c :: acc)

/-- Longest prefix of decimal digits. -/
def takeDigits : List Char → (List Nat × List Char)
  | [] => ([], [])
  | c :: rest =>
    match digitVal c with
    | some d =>
      let p := takeDigits rest
      (d :: p.1, p.2)
    | none => ([], c :: rest)

/-- Value of a big-endian digit list. -/
def natOfDigits (ds : List Nat) : Nat := ds.foldl (fun a d => a * 10 + d) 0

/-- Exponent part of a number, after `e`/`E`. -/
def parseExpRest (cs : List Char) : Except String (Int × List Char) :=
  match cs with
  | '+' :: r =>
    match takeDigits r with
    | ([], _) => .error "invalid number: missing exponent digits"
    | (es, r2) => .ok ((natOfDigits es : Int), r2)
  | '-' :: r =>
    match takeDigits r with
    | ([], _) => .error "invalid number: missing exponent digits"
    | (es, r2) => .ok (-(natOfDigits es : Int), r2)
  | _ =>
    match takeDigits cs with
    | ([], _) => .error "invalid number: missing exponent digits"
    | (es, r2) => .ok ((natOfDigits es : Int), r2)

/-- Grammar of a JSON number after the optional leading minus sign:
an integer part without superfluous leading zero, an optional fraction, and an
optional exponent, exactly as serde_json accepts. -/
def parseNumber (neg : Bool) (cs : List Char) : Except String (Json × List Char) :=
  match takeDigits cs with
  | ([], _) => .error "invalid number"
  | (d :: ds, rest) =>
    if d = 0 ∧ ds ≠ [] then .error "invalid number: leading zero"
    else
      let ip : Nat := natOfDigits (d :: ds)
      let fracStep : Except String (List Nat × List Char × Bool) :=
        match rest with
        | '.' :: r =>
          match takeDigits r with
          | ([], _) => .error "invalid number: missing fraction digits"
          | (fs, r2) => .ok (fs, r2, true)
        | _ => .ok ([], rest, false)
      match fracStep with
      | .error e => .error e
      | .ok (fds, rest2, hasFrac) =>
        let expStep : Except String (Int × List Char × Bool) :=
          match rest2 with
          | c :: r =>
            if c = 'e' ∨ c = 'E' then
              match parseExpRest r with
              | .error e => .error e
              | .ok (ex, r2) => .ok (ex, r2, true)
            else .ok (0, c :: r, false)
          | [] => .ok (0, [], false)
        match expStep with
        | .error e => .error e
        | .ok (ex, rest3, hasExp) =>
          let mant : Nat := ip * 10 ^ fds.length + natOfDigits fds
          let smant : Int := if neg then -(mant : Int) else (mant : Int)
          let exp10 : Int := ex - fds.length
          let q : ℚ :=
            if 0 ≤ exp10 then mkRat (smant * 10 ^ exp10.toNat) 1
            else mkRat smant (10 ^ (-exp10).toNat)
          .ok (.num (!hasFrac && !hasExp) q, rest3)

mutual

/-- One JSON value, recursive-descent with fuel; serde_json's representation
limit plays the role of the fuel bound. -/
def parseValue : Nat → List Char → Except String (Json × List Char)
  | 0, _ => .error "recursion limit exceeded"
  | fuel + 1, cs =>
    match cs with
    | [] => .error "unexpected end of input"
    | c :: rest =>
      if c = lbrace then
        match skipWs rest with
        | c1 :: rest1 =>
          if c1 = rbrace then .ok (.obj [], rest1)
          else parseMembers fuel (c1 :: rest1) []
        | [] => .error "unexpected end of input in object"
      else if c = '[' then
        match skipWs rest with
        | c1 :: rest1 =>
          if c1 = ']' then .ok (.arr [], rest1)
          else parseElements fuel (c1 :: rest1) []
        | [] => .error "unexpected end of input in array"
      else if c = '"' then
        match parseStringRest rest [] with
        | .error e => .error e
        | .ok (s, r) => .ok (.str s, r)
      else if c = 't' then
        match rest with
        | 'r' :: 'u' :: 'e' :: r => .ok (.bool true, r)
        | _ => .error "invalid literal"
      else if c = 'f' then
        match rest with
        | 'a' :: 'l' :: 's' :: 'e' :: r => .ok (.bool false, r)
        | _ => .error "invalid literal"
      else if c = 'n' then
        match rest with
        | 'u' :: 'l' :: 'l' :: r => .ok (.null, r)
        | _ => .error "invalid literal"
      else if c = '-' then parseNumber true rest
      else if (digitVal c).isSome then parseNumber false (c :: rest)
      else .error "unexpected character"

/-- Comma-separated array elements, up to the closing bracket. -/
def parseElements : Nat → List Char → List Json → Except String (Json × List Char)
  | 0, _, _ => .error "recursion limit exceeded"
  | fuel + 1, cs, acc =>
    match parseValue fuel (skipWs cs) with
    | .error e => .error e
    | .ok (v, r) =>
      match skipWs r with
      | ',' :: r2 => parseElements fuel r2 (v :: acc)
      | c :: r2 =>
        if c = ']' then .ok (.arr (v :: acc).reverse, r2)
        else .error "expected comma or end of array"
      | [] => .error "unexpected end of input in array"

/-- Comma-separated `"key": value` members, up to the closing brace. -/
def parseMembers : Nat → List Char → List (String × Json) → Except String (Json × List Char)
  | 0, _, _ => .error "recursion limit exceeded"
  | fuel + 1, cs, acc =>
    match cs with
    | c :: rest =>
      if c = '"' then
        match parseStringRest rest [] with
        | .error e => .error e
        | .ok (k, r) =>
          match skipWs r with
          | ':' :: r2 =>
            match parseValue fuel (skipWs r2) with
            | .error e => .error e
            | .ok (v, r3) =>
              match skipWs r3 with
              | ',' :: r4 => parseMembers fuel (skipWs r4) ((k, v) :: acc)
              | c2 :: r4 =>
                if c2 = rbrace then .ok (.obj ((k, v) :: acc).reverse, r4)
                else .error "expected comma or end of object"
              | [] => .error "unexpected end of input in object"
          | _ => .error "expected colon"
      else .error "key must be a string"
    | [] => .error "unexpected end of input in object"

end

/-- The syntax layer of `serde_json::from_slice`: parse one JSON document and
reject trailing characters. -/
def parseJson (cs : List Char) : Except String Json :=
  match parseValue (cs.length + 1) (skipWs cs) with
  | .error e => .error e
  | .ok (v, rest) =>
    match skipWs rest with
    | [] => .ok v
    | _ => .error "trailing characters"

/-- Per-accumulator payload record, from `AccumulatorData` in `src/lib.rs`.
`cycles` is a `u64`; its range constraint is enforced at decode time. -/
structure AccumulatorData where
  interval : ℚ
  elapsed : ℚ
  cycles : Nat
  running : Bool
  repeating : Bool
deriving DecidableEq

/-- The wire-level tick event, from `TickMessage` in `src/lib.rs`, fields in
declaration order.  The `HashMap<String, AccumulatorData>` is modelled as an
association list with last-insertion-wins semantics, which is how serde fills
a `HashMap` from a JSON object. -/
structure TickMessage where
  id : String
  short_id : String
  event_type : String
  stamp : ℚ
  interval : ℚ
  paused : Bool
  stepping : Bool
  start_time : ℚ
  «namespace» : String
  backpressure : Bool
  wall_time : List Int
  current_choice : Option String
  transport : List String
  disposition : Option String
  connected : Bool
  accumulators : List (String × AccumulatorData)
deriving DecidableEq

/-- Deserializing a JSON value into a `String` field. -/
def asString : Json → Except String String
  | .str s => .ok s
  | _ => .error "invalid type: expected a string"

/-- Deserializing a JSON value into a `bool` field. -/
def asBool : Json → Except String Bool
  | .bool b => .ok b
  | _ => .error "invalid type: expected a boolean"

/-- Deserializing a JSON value into an `f64` field: serde_json accepts any
JSON number here. -/
def asF64 : Json → Except String ℚ
  | .num _ q => .ok q
  | _ => .error "invalid type: expected f64"

/-- Deserializing a JSON value into an `i32`: the literal must be written in
integer form and lie in the `i32` range. -/
def asI32 : Json → Except String Int
  | .num true q =>
    if q.den = 1 ∧ -(2 ^ 31) ≤ q.num ∧ q.num < 2 ^ 31 then .ok q.num
    else .error "invalid value: out of range for i32"
  | _ => .error "invalid type: expected i32"

/-- Deserializing a JSON value into a `u64`: the literal must be written in
integer form and lie in the `u64` range. -/
def asU64 : Json → Except String Nat
  | .num true q =>
    if q.den = 1 ∧ 0 ≤ q.num ∧ q.num < 2 ^ 64 then .ok q.num.toNat
    else .error "invalid value: out of range for u64"
  | _ => .error "invalid type: expected u64"

/-- Deserializing a JSON value into an `Option<String>` field: `null` maps to
`None`, a string to `Some`, anything else is a type mismatch. -/
def asOptString : Json → Except String (Option String)
  | .null => .ok none
  | .str s => .ok (some s)
  | _ => .error "invalid type: expected string or null"

/-- Serde's sequence visit: deserialize the elements one by one, stopping at
the first failure. -/
def mapDecode {α : Type} (f : Json → Except String α) : List Json → Except String (List α)
  | [] => .ok []
  | x :: xs => do
    let y ← f x
    let ys ← mapDecode f xs
    .ok (y :: ys)

/-- Deserializing a JSON value into a `Vec<i32>` field. -/
def asI32List : Json → Except String (List Int)
  | .arr xs => mapDecode asI32 xs
  | _ => .error "invalid type: expected a sequence"

/-- Deserializing a JSON value into a `Vec<String>` field. -/
def asStringList : Json → Except String (List String)
  | .arr xs => mapDecode asString xs
  | _ => .error "invalid type: expected a sequence"

/-- Partially-filled `AccumulatorData` during serde's map visit. -/
structure RawAcc where
  interval : Option ℚ := none
  elapsed : Option ℚ := none
  cycles : Option Nat := none
  running : Option Bool := none
  repeating : Option Bool := none

/-- Serde's fill-once discipline for one struct field: seeing a field that is
already filled is a `duplicate field` error, otherwise the value is
deserialized and handed to the continuation. -/
def setOnce {α β : Type} (cur : Option α) (name : String) (conv : Except String α)
    (cont : α → Except String β) : Except String β :=
  match cur with
  | some _ => .error ("duplicate field " ++ name)
  | none => conv >>= cont

/-- The map visit of the derived `Deserialize` for `AccumulatorData`: fields
are matched by name, duplicates are rejected, unknown keys are ignored. -/
def readAccFields : List (String × Json) → RawAcc → Except String RawAcc
  | [], r => .ok r
  | (k, v) :: fs, r =>
    if k = "interval" then
      setOnce r.interval "interval" (asF64 v) fun x => readAccFields fs { r with interval := some x }
    else if k = "elapsed" then
      setOnce r.elapsed "elapsed" (asF64 v) fun x => readAccFields fs { r with elapsed := some x }
    else if k = "cycles" then
      setOnce r.cycles "cycles" (asU64 v) fun x => readAccFields fs { r with cycles := some x }
    else if k = "running" then
      setOnce r.running "running" (asBool v) fun x => readAccFields fs { r with running := some x }
    else if k = "repeating" then
      setOnce r.repeating "repeating" (asBool v) fun x => readAccFields fs { r with repeating := some x }
    else readAccFields fs r

/-- Extraction of a required field after the map visit; a hole is a
`missing field` error. -/
def req {α : Type} (o : Option α) (name : String) : Except String α :=
  match o with
  | some a => .ok a
  | none => .error ("missing field " ++ name)

/-- End of the map visit for `AccumulatorData`: all five fields are required. -/
def finishAcc (r : RawAcc) : Except String AccumulatorData := do
  let interval ← req r.interval "interval"
  let elapsed ← req r.elapsed "elapsed"
  let cycles ← req r.cycles "cycles"
  let running ← req r.running "running"
  let repeating ← req r.repeating "repeating"
  .ok ⟨interval, elapsed, cycles, running, repeating⟩

/-- Deserializing one `AccumulatorData` value. -/
def accFromJson : Json → Except String AccumulatorData
  | .obj fs => readAccFields fs {} >>= finishAcc
  | _ => .error "invalid type: expected struct AccumulatorData"

/-- `HashMap::insert`: replace the value of an existing key in place, append a
new key. -/
def insertEntry (m : List (String × AccumulatorData)) (k : String) (a : AccumulatorData) :
    List (String × AccumulatorData) :=
  match m with
  | [] => [(k, a)]
  | (k', a') :: rest => if k' = k then (k, a) :: rest else (k', a') :: insertEntry rest k a

/-- Serde's map visit for `HashMap<String, AccumulatorData>`: deserialize each
entry's value and insert it, in document order. -/
def readAccEntries (m : List (String × AccumulatorData)) :
    List (String × Json) → Except String (List (String × AccumulatorData))
  | [] => .ok m
  | (k, v) :: fs => do
    let a ← accFromJson v
    readAccEntries (insertEntry m k a) fs

/-- Deserializing the `HashMap<String, AccumulatorData>` field: every entry of
the JSON object is deserialized and inserted in order. -/
def asAccMap : Json → Except String (List (String × AccumulatorData))
  | .obj fs => readAccEntries [] fs
  | _ => .error "invalid type: expected a map"

/-- Partially-filled `TickMessage` during serde's map visit. -/
structure RawTick where
  id : Option String := none
  short_id : Option String := none
  event_type : Option String := none
  stamp : Option ℚ := none
  interval : Option ℚ := none
  paused : Option Bool := none
  stepping : Option Bool := none
  start_time : Option ℚ := none
  «namespace» : Option String := none
  backpressure : Option Bool := none
  wall_time : Option (List Int) := none
  current_choice : Option (Option String) := none
  transport : Option (List String) := none
  disposition : Option (Option String) := none
  connected : Option Bool := none
  accumulators : Option (List (String × AccumulatorData)) := none

/-- The map visit of the derived `Deserialize` for `TickMessage`: fields are
matched by name, a second occurrence of a known field is a `duplicate field`
error, and unknown keys are skipped (`IgnoredAny`), since the struct does not
opt into `deny_unknown_fields`. -/
def readTickFields : List (String × Json) → RawTick → Except String RawTick
  | [], r => .ok r
  | (k, v) :: fs, r =>
    if k = "id" then
      setOnce r.id "id" (asString v) fun x => readTickFields fs { r with id := some x }
    else if k = "short_id" then
      setOnce r.short_id "short_id" (asString v) fun x => readTickFields fs { r with short_id := some x }
    else if k = "event_type" then
      setOnce r.event_type "event_type" (asString v) fun x => readTickFields fs { r with event_type := some x }
    else if k = "stamp" then
      setOnce r.stamp "stamp" (asF64 v) fun x => readTickFields fs { r with stamp := some x }
    else if k = "interval" then
      setOnce r.interval "interval" (asF64 v) fun x => readTickFields fs { r with interval := some x }
    else if k = "paused" then
      setOnce r.paused "paused" (asBool v) fun x => readTickFields fs { r with paused := some x }
    else if k = "stepping" then
      setOnce r.stepping "stepping" (asBool v) fun x => readTickFields fs { r with stepping := some x }
    else if k = "start_time" then
      setOnce r.start_time "start_time" (asF64 v) fun x => readTickFields fs { r with start_time := some x }
    else if k = "namespace" then
      setOnce r.«namespace» "namespace" (asString v) fun x => readTickFields fs { r with «namespace» := some x }
    else if k = "backpressure" then
      setOnce r.backpressure "backpressure" (asBool v) fun x => readTickFields fs { r with backpressure := some x }
    else if k = "wall_time" then
      setOnce r.wall_time "wall_time" (asI32List v) fun x => readTickFields fs { r with wall_time := some x }
    else if k = "current_choice" then
      setOnce r.current_choice "current_choice" (asOptString v) fun x => readTickFields fs { r with current_choice := some x }
    else if k = "transport" then
      setOnce r.transport "transport" (asStringList v) fun x => readTickFields fs { r with transport := some x }
    else if k = "disposition" then
      setOnce r.disposition "disposition" (asOptString v) fun x => readTickFields fs { r with disposition := some x }
    else if k = "connected" then
      setOnce r.connected "connected" (asBool v) fun x => readTickFields fs { r with connected := some x }
    else if k = "accumulators" then
      setOnce r.accumulators "accumulators" (asAccMap v) fun x => readTickFields fs { r with accumulators := some x }
    else readTickFields fs r

/-- End of the map visit for `TickMessage`: the fields of `Option` type default
to `None` when missing, every other field is required; checks run in field
declaration order, as in the derived code. -/
def finishTick (r : RawTick) : Except String TickMessage := do
  let id ← req r.id "id"
  let short_id ← req r.short_id "short_id"
  let event_type ← req r.event_type "event_type"
  let stamp ← req r.stamp "stamp"
  let interval ← req r.interval "interval"
  let paused ← req r.paused "paused"
  let stepping ← req r.stepping "stepping"
  let start_time ← req r.start_time "start_time"
  let ns ← req r.«namespace» "namespace"
  let backpressure ← req r.backpressure "backpressure"
  let wall_time ← req r.wall_time "wall_time"
  let current_choice := r.current_choice.getD none
  let transport ← req r.transport "transport"
  let disposition := r.disposition.getD none
  let connected ← req r.connected "connected"
  let accumulators ← req r.accumulators "accumulators"
  .ok ⟨id, short_id, event_type, stamp, interval, paused, stepping, start_time, ns,
    backpressure, wall_time, current_choice, transport, disposition, connected, accumulators⟩

/-- Deserializing a `TickMessage` from a JSON value: only an object is
accepted at the top. -/
def tickFromJson : Json → Except String TickMessage
  | .obj fs => readTickFields fs {} >>= finishTick
  | _ => .error "invalid type: expected struct TickMessage"

/-- The whole of `serde_json::from_slice::<TickMessage>` on a payload:
syntax, then the derived field visit. -/
def decode (payload : List Char) : Except String TickMessage :=
  parseJson payload >>= tickFromJson

/-- The local clock snapshot, from `ClockState` in `src/lib.rs`; `Instant` is
modelled as a `Nat`-valued time. -/
structure ClockState where
  stamp : ℚ
  paused : Bool
  last_update : Option Nat
deriving DecidableEq

/-- The value of `ClockState::default()`. -/
def defaultClockState : ClockState := ⟨0, false, none⟩

/-- The shared store `SharedClockState(Arc<Mutex<ClockState>>)`: the mutex is
modelled by its poisoned flag, since `lock()` fails exactly when the mutex is
poisoned. -/
structure SharedClockState where
  poisoned : Bool
  clock : ClockState
deriving DecidableEq

/-- The store built in `main`: a fresh (unpoisoned) mutex around the default
clock state. -/
def initialState : SharedClockState := ⟨false, defaultClockState⟩

/-- The function `update_clock` of `src/conductor/state.rs`: on a successful
lock the stamp and paused flag are stored and `last_update` is set to the
current time; a poisoned lock makes the `if let Ok` fall through, leaving the
state untouched. -/
def update_clock (state : SharedClockState) (stamp : ℚ) (paused : Bool) (now : Nat) :
    SharedClockState :=
  if state.poisoned then state
  else { state with clock := ⟨stamp, paused, some now⟩ }

/-- The function `read_clock` of `src/conductor/state.rs`: `lock().ok()`
yields the guarded state, or `none` when the mutex is poisoned. -/
def read_clock (state : SharedClockState) : Option ClockState :=
  if state.poisoned then none else some state.clock

/-- The function `handle_tick` of `src/conductor/tick.rs`: decode the payload
(`?` propagates the decode error without touching the store), then write stamp
and paused through `update_clock`. -/
def handle_tick (payload : List Char) (shared : SharedClockState) (now : Nat) :
    Except String Unit × SharedClockState :=
  match decode payload with
  | .error e => (.error e, shared)
  | .ok tick => (.ok (), update_clock shared tick.stamp tick.paused now)

/-- The receive loop of `start_tick_listener` in `src/nats/listener.rs`,
applied to the sequence of arriving payloads: each message is handed to
`handle_tick`; an error is only printed, the loop goes on with the store the
handler left. -/
def start_tick_listener : List (List Char) → SharedClockState → Nat → SharedClockState
  | [], s, _ => s
  | msg :: msgs, s, now => start_tick_listener msgs (handle_tick msg s now).2 (now + 1)

/-- One operation touching the shared store: a handled message, a direct
write, or a read (which never mutates). -/
inductive ConductorOp where
  | handleMsg (payload : List Char) : ConductorOp
  | writeClock (stamp : ℚ) (paused : Bool) : ConductorOp
  | readClock : ConductorOp

/-- Effect of one operation on the store. -/
def applyOp (s : SharedClockState) (op : ConductorOp) (now : Nat) : SharedClockState :=
  match op with
  | .handleMsg p => (handle_tick p s now).2
  | .writeClock q b => update_clock s q b now
  | .readClock => s

/-- Store reached after a sequence of operations. -/
def runOps : List ConductorOp → SharedClockState → Nat → SharedClockState
  | [], s, _ => s
  | op :: ops, s, now => runOps ops (applyOp s op now) (now + 1)

/-- Whether an operation successfully applies a tick to the store: a handled
message whose payload decodes, or a direct write. -/
def opWrites : ConductorOp → Bool
  | .handleMsg p => okB (decode p)
  | .writeClock _ _ => true
  | .readClock => false

/-- The §8 example payload, bytes as written in the spec. -/
def examplePayloadStr : String := "\x7b\"id\":\"a\",\"short_id\":\"a1\",\"event_type\":\"tick\",\"stamp\":12.5,\"interval\":0.1,\"paused\":false,\"stepping\":false,\"start_time\":0,\"namespace\":\"ns\",\"backpressure\":false,\"wall_time\":[],\"transport\":[],\"connected\":true,\"accumulators\":\x7b\x7d\x7d"

/-- The §8 example payload as a character sequence. -/
def examplePayload : List Char := examplePayloadStr.toList

/-- The tick event the §8 example payload denotes. -/
def exampleTick : TickMessage :=
  ⟨"a", "a1", "tick", mkRat 25 2, mkRat 1 10, false, false, 0, "ns", false,
    [], none, [], none, true, []⟩

/-- A second valid payload, carrying stamp 2.0 and paused true. -/
def secondPayloadStr : String := "\x7b\"id\":\"b\",\"short_id\":\"b1\",\"event_type\":\"tick\",\"stamp\":2.0,\"interval\":0.1,\"paused\":true,\"stepping\":false,\"start_time\":0,\"namespace\":\"ns\",\"backpressure\":false,\"wall_time\":[],\"transport\":[],\"connected\":true,\"accumulators\":\x7b\x7d\x7d"

/-- The second valid payload as a character sequence. -/
def secondPayload : List Char := secondPayloadStr.toList

/-- A structurally malformed payload: a lone opening brace. -/
def badPayload : List Char := "\x7b".toList

/-- The tick event the second payload denotes. -/
def secondTick : TickMessage :=
  ⟨"b", "b1", "tick", 2, mkRat 1 10, true, false, 0, "ns", false,
    [], none, [], none, true, []⟩

theorem applyOp_poisoned (s : SharedClockState) (op : ConductorOp) (now : Nat) :
    (applyOp s op now).poisoned = s.poisoned := by
  rcases s with ⟨p, c⟩
  cases op with
  | handleMsg pl =>
    cases hd : decode pl <;> cases p <;> simp [applyOp, handle_tick, hd, update_clock]
  | writeClock q b => cases p <;> simp [applyOp, update_clock]
  | readClock => rfl

theorem runOps_no_write (ops : List ConductorOp) (s : SharedClockState) (now : Nat)
    (h : ops.any opWrites = false) : runOps ops s now = s := by
  induction ops generalizing s now with
  | nil => rfl
  | cons op ops ih =>
    rw [List.any_cons, Bool.or_eq_false_iff] at h
    obtain ⟨h1, h2⟩ := h
    cases op with
    | handleMsg pl =>
      cases hd : decode pl with
      | ok t => rw [opWrites, hd] at h1; simp at h1
      | error e =>
        have : applyOp s (.handleMsg pl) now = s := by simp [applyOp, handle_tick, hd]
        rw [runOps, this]
        exact ih s (now + 1) h2
    | writeClock q b => simp [opWrites] at h1
    | readClock =>
      rw [runOps]
      exact ih s (now + 1) h2

theorem runOps_last_update (ops : List ConductorOp) (s : SharedClockState) (now : Nat)
    (h : s.poisoned = false) :
    (runOps ops s now).clock.last_update.isSome =
      (s.clock.last_update.isSome || ops.any opWrites) := by
  induction ops generalizing s now with
  | nil => simp [runOps]
  | cons op ops ih =>
    rw [runOps, List.any_cons]
    cases op with
    | handleMsg pl =>
      cases hd : decode pl with
      | ok t =>
        have hs : applyOp s (.handleMsg pl) now =
            { s with clock := ⟨t.stamp, t.paused, some now⟩ } := by
          simp [applyOp, handle_tick, hd, update_clock, h]
        rw [hs, ih _ _ (by simp [h])]
        simp [opWrites, hd]
      | error e =>
        have hs : applyOp s (.handleMsg pl) now = s := by simp [applyOp, handle_tick, hd]
        rw [hs, ih _ _ h]
        simp [opWrites, hd, Bool.or_assoc]
    | writeClock q b =>
      have hs : applyOp s (.writeClock q b) now =
          { s with clock := ⟨q, b, some now⟩ } := by
        simp [applyOp, update_clock, h]
      rw [hs, ih _ _ (by simp [h])]
      simp [opWrites]
    | readClock =>
      rw [show applyOp s .readClock now = s from rfl, ih _ _ h]
      simp [opWrites, Bool.or_assoc]

/-- C6: starting from the default initial store, over any sequence of
handle/write/read operations, `last_update` is set exactly when some tick was
successfully applied (a decoded message or a direct write), and before the
first successful application the store still holds the default
stamp-zero/unpaused state. -/
theorem last_update_iff_tick_applied (ops : List ConductorOp) (now : Nat) :
    ((runOps ops initialState now).clock.last_update.isSome = ops.any opWrites) ∧
    (ops.any opWrites = false → runOps ops initialState now = initialState) := by
  constructor
  · rw [runOps_last_update ops initialState now rfl]
    simp [initialState, defaultClockState]
  · exact runOps_no_write ops initialState now

set_option maxRecDepth 40000 in
/-- Witness for C6 at concrete operation sequences. -/
theorem last_update_iff_tick_applied_witness :
    (runOps [ConductorOp.readClock, ConductorOp.handleMsg badPayload] initialState 0 =
      initialState) ∧
    ((runOps [ConductorOp.handleMsg examplePayload] initialState 0).clock.last_update.isSome =
      [ConductorOp.handleMsg examplePayload].any opWrites) :=
  ⟨(last_update_iff_tick_applied [ConductorOp.readClock, ConductorOp.handleMsg badPayload] 0).2
      (by decide),
   (last_update_iff_tick_applied [ConductorOp.handleMsg examplePayload] 0).1⟩

/-- C1 (amended): `write` never fails, and on every store whose mutex is not
poisoned it records the new stamp and paused values and sets `last_update` to
the current time; on a poisoned store it leaves the state unchanged. -/
theorem update_clock_records_unless_poisoned (s : SharedClockState) (q : ℚ) (b : Bool)
    (now : Nat) (h : s.poisoned = false) :
    update_clock s q b now = ⟨false, ⟨q, b, some now⟩⟩ := by
  rcases s with ⟨p, c⟩
  simp only at h
  subst h
  simp [update_clock]

/-- Witness for C1's amended theorem at a concrete store. -/
theorem update_clock_records_witness :
    update_clock initialState 1 true 3 = ⟨false, ⟨1, true, some 3⟩⟩ :=
  update_clock_records_unless_poisoned initialState 1 true 3 rfl

/-- Counterexample to C1 as stated: on a poisoned store, `write` does not
record the new values — the `if let Ok` in `update_clock` silently skips. -/
theorem update_clock_poisoned_skips_write :
    ¬ (update_clock ⟨true, ⟨3, true, none⟩⟩ 1 false 5).clock = ⟨1, false, some 5⟩ := by
  decide

/-- C4: `read` yields `none` exactly when the mutex is poisoned, and on an
unpoisoned store it returns the guarded state itself, never a fabricated
default. -/
theorem read_clock_snapshot_or_unavailable (s : SharedClockState) :
    (read_clock s = none ↔ s.poisoned = true) ∧
    (s.poisoned = false → read_clock s = some s.clock) := by
  rcases s with ⟨p, c⟩
  cases p <;> simp [read_clock]

/-- Witness for C4 at concrete stores, poisoned and not. -/
theorem read_clock_witness :
    (read_clock ⟨true, defaultClockState⟩ = none) ∧
    (read_clock initialState = some initialState.clock) :=
  ⟨(read_clock_snapshot_or_unavailable ⟨true, defaultClockState⟩).1.mpr rfl,
   (read_clock_snapshot_or_unavailable initialState).2 rfl⟩

/-- C7: when decoding fails, `handle_tick` returns the decode error and the
store is exactly as before the call. -/
theorem handle_tick_decode_failure_leaves_store (bs : List Char) (e : String)
    (s : SharedClockState) (now : Nat) (h : decode bs = .error e) :
    handle_tick bs s now = (.error e, s) := by
  simp [handle_tick, h]

set_option maxRecDepth 40000 in
/-- Witness for C7 at the malformed payload. -/
theorem handle_tick_decode_failure_witness :
    handle_tick badPayload ⟨false, ⟨7, true, some 2⟩⟩ 9 =
      (.error "unexpected end of input in object", ⟨false, ⟨7, true, some 2⟩⟩) :=
  handle_tick_decode_failure_leaves_store badPayload "unexpected end of input in object"
    ⟨false, ⟨7, true, some 2⟩⟩ 9 (by decide)

/-- C9: when the payload decodes but the store's mutex is poisoned,
`handle_tick` still returns `Ok` and the write is silently skipped. -/
theorem handle_tick_poisoned_store_silent (bs : List Char) (tick : TickMessage)
    (s : SharedClockState) (now : Nat) (h : decode bs = .ok tick) (hp : s.poisoned = true) :
    handle_tick bs s now = (.ok (), s) := by
  simp [handle_tick, h, update_clock, hp]

set_option maxRecDepth 40000 in
/-- Witness for C9 at the example payload and a poisoned store. -/
theorem handle_tick_poisoned_witness :
    handle_tick examplePayload ⟨true, ⟨3, true, none⟩⟩ 4 = (.ok (), ⟨true, ⟨3, true, none⟩⟩) :=
  handle_tick_poisoned_store_silent examplePayload exampleTick ⟨true, ⟨3, true, none⟩⟩ 4
    (by decide) rfl

set_option maxRecDepth 100000 in
/-- C2: a payload that decodes to a tick makes `handle_tick` succeed and leaves
the (unpoisoned) store readable at exactly the tick's stamp and paused flag
with `last_update` set to the call time, which is at least the time just
before the call; in particular the §8 example payload decodes and leaves the
store at stamp 12.5, unpaused. -/
theorem handle_tick_valid_payload_updates_store :
    (∀ (bs : List Char) (tick : TickMessage) (s : SharedClockState) (now tpre : Nat),
      decode bs = .ok tick → s.poisoned = false → tpre ≤ now →
      (handle_tick bs s now).1 = .ok () ∧
      read_clock (handle_tick bs s now).2 = some ⟨tick.stamp, tick.paused, some now⟩ ∧
      (handle_tick bs s now).2.clock.last_update = some now ∧ tpre ≤ now) ∧
    (decode examplePayload = .ok exampleTick ∧ exampleTick.stamp = 25 / 2 ∧
      exampleTick.paused = false ∧
      read_clock (handle_tick examplePayload initialState 7).2 = some ⟨25 / 2, false, some 7⟩) := by
  constructor
  · intro bs tick s now tpre hd hp ht
    refine ⟨by simp [handle_tick, hd], ?_, by simp [handle_tick, hd, update_clock, hp], ht⟩
    simp [handle_tick, hd, update_clock, hp, read_clock]
  · have hq : (25 / 2 : ℚ) = mkRat 25 2 := by norm_num [Rat.mkRat_eq_div]
    refine ⟨by decide, ?_, rfl, ?_⟩
    · rw [hq]; decide
    · rw [hq]; decide

set_option maxRecDepth 40000 in
/-- Witness for C2's universal part at the example payload. -/
theorem handle_tick_valid_payload_witness :
    (handle_tick examplePayload initialState 7).1 = .ok () ∧
    read_clock (handle_tick examplePayload initialState 7).2 =
      some ⟨exampleTick.stamp, exampleTick.paused, some 7⟩ ∧
    (handle_tick examplePayload initialState 7).2.clock.last_update = some 7 ∧ 5 ≤ 7 :=
  handle_tick_valid_payload_updates_store.1 examplePayload exampleTick initialState 7 5
    (by decide) rfl (by decide)

/-- C5: a malformed payload between two valid ticks leaves the store exactly
as the first tick left it, and the loop still applies the second tick,
finishing at the second tick's values. -/
theorem malformed_between_valid_ticks_isolated (b1 bad b2 : List Char)
    (t1 t2 : TickMessage) (e : String) (s : SharedClockState) (now : Nat)
    (h1 : decode b1 = .ok t1) (hb : decode bad = .error e) (h2 : decode b2 = .ok t2)
    (hp : s.poisoned = false) :
    start_tick_listener [b1, bad] s now = start_tick_listener [b1] s now ∧
    start_tick_listener [b1, bad, b2] s now =
      ⟨false, ⟨t2.stamp, t2.paused, some (now + 2)⟩⟩ := by
  rcases s with ⟨p, c⟩
  simp only at hp
  subst hp
  constructor
  · simp [start_tick_listener, handle_tick, h1, hb]
  · simp [start_tick_listener, handle_tick, h1, hb, h2, update_clock]

set_option maxRecDepth 100000 in
/-- Witness for C5 at the example payloads with the malformed payload
interleaved. -/
theorem malformed_between_valid_ticks_witness :
    start_tick_listener [examplePayload, badPayload] initialState 0 =
      start_tick_listener [examplePayload] initialState 0 ∧
    start_tick_listener [examplePayload, badPayload, secondPayload] initialState 0 =
      ⟨false, ⟨secondTick.stamp, secondTick.paused, some 2⟩⟩ :=
  malformed_between_valid_ticks_isolated examplePayload badPayload secondPayload
    exampleTick secondTick "unexpected end of input in object" initialState 0
    (by decide) (by decide) (by decide) rfl

/-- The field names the derived `Deserialize` for `TickMessage` recognizes. -/
def isKnownKey (k : String) : Bool :=
  decide (k = "id" ∨ k = "short_id" ∨ k = "event_type" ∨ k = "stamp" ∨ k = "interval" ∨
    k = "paused" ∨ k = "stepping" ∨ k = "start_time" ∨ k = "namespace" ∨
    k = "backpressure" ∨ k = "wall_time" ∨ k = "current_choice" ∨ k = "transport" ∨
    k = "disposition" ∨ k = "connected" ∨ k = "accumulators")

theorem setOnce_congr {α β : Type} (cur : Option α) (name : String)
    (conv : Except String α) (c1 c2 : α → Except String β) (h : ∀ x, c1 x = c2 x) :
    setOnce cur name conv c1 = setOnce cur name conv c2 := by
  cases cur with
  | some a => rfl
  | none =>
    cases conv with
    | error e => rfl
    | ok a => exact h a

theorem readTickFields_filter (fs : List (String × Json)) (r : RawTick) :
    readTickFields fs r = readTickFields (fs.filter fun p => isKnownKey p.1) r := by
  induction fs generalizing r with
  | nil => rfl
  | cons p fs ih =>
    obtain ⟨k, v⟩ := p
    by_cases h1 : k = "id"
    case pos =>
      subst h1
      rw [List.filter_cons_of_pos (by simp [isKnownKey])]
      simp only [readTickFields]
      exact setOnce_congr _ _ _ _ _ fun x => ih _
    case neg =>
    by_cases h2 : k = "short_id"
    case pos =>
      subst h2
      rw [List.filter_cons_of_pos (by simp [isKnownKey])]
      simp only [readTickFields]
      exact setOnce_congr _ _ _ _ _ fun x => ih _
    case neg =>
    by_cases h3 : k = "event_type"
    case pos =>
      subst h3
      rw [List.filter_cons_of_pos (by simp [isKnownKey])]
      simp only [readTickFields]
      exact setOnce_congr _ _ _ _ _ fun x => ih _
    case neg =>
    by_cases h4 : k = "stamp"
    case pos =>
      subst h4
      rw [List.filter_cons_of_pos (by simp [isKnownKey])]
      simp only [readTickFields]
      exact setOnce_congr _ _ _ _ _ fun x => ih _
    case neg =>
    by_cases h5 : k = "interval"
    case pos =>
      subst h5
      rw [List.filter_cons_of_pos (by simp [isKnownKey])]
      simp only [readTickFields]
      exact setOnce_congr _ _ _ _ _ fun x => ih _
    case neg =>
    by_cases h6 : k = "paused"
    case pos =>
      subst h6
      rw [List.filter_cons_of_pos (by simp [isKnownKey])]
      simp only [readTickFields]
      exact setOnce_congr _ _ _ _ _ fun x => ih _
    case neg =>
    by_cases h7 : k = "stepping"
    case pos =>
      subst h7
      rw [List.filter_cons_of_pos (by simp [isKnownKey])]
      simp only [readTickFields]
      exact setOnce_congr _ _ _ _ _ fun x => ih _
    case neg =>
    by_cases h8 : k = "start_time"
    case pos =>
      subst h8
      rw [List.filter_cons_of_pos (by simp [isKnownKey])]
      simp only [readTickFields]
      exact setOnce_congr _ _ _ _ _ fun x => ih _
    case neg =>
    by_cases h9 : k = "namespace"
    case pos =>
      subst h9
      rw [List.filter_cons_of_pos (by simp [isKnownKey])]
      simp only [readTickFields]
      exact setOnce_congr _ _ _ _ _ fun x => ih _
    case neg =>
    by_cases h10 : k = "backpressure"
    case pos =>
      subst h10
      rw [List.filter_cons_of_pos (by simp [isKnownKey])]
      simp only [readTickFields]
      exact setOnce_congr _ _ _ _ _ fun x => ih _
    case neg =>
    by_cases h11 : k = "wall_time"
    case pos =>
      subst h11
      rw [List.filter_cons_of_pos (by simp [isKnownKey])]
      simp only [readTickFields]
      exact setOnce_congr _ _ _ _ _ fun x => ih _
    case neg =>
    by_cases h12 : k = "current_choice"
    case pos =>
      subst h12
      rw [List.filter_cons_of_pos (by simp [isKnownKey])]
      simp only [readTickFields]
      exact setOnce_congr _ _ _ _ _ fun x => ih _
    case neg =>
    by_cases h13 : k = "transport"
    case pos =>
      subst h13
      rw [List.filter_cons_of_pos (by simp [isKnownKey])]
      simp only [readTickFields]
      exact setOnce_congr _ _ _ _ _ fun x => ih _
    case neg =>
    by_cases h14 : k = "disposition"
    case pos =>
      subst h14
      rw [List.filter_cons_of_pos (by simp [isKnownKey])]
      simp only [readTickFields]
      exact setOnce_congr _ _ _ _ _ fun x => ih _
    case neg =>
    by_cases h15 : k = "connected"
    case pos =>
      subst h15
      rw [List.filter_cons_of_pos (by simp [isKnownKey])]
      simp only [readTickFields]
      exact setOnce_congr _ _ _ _ _ fun x => ih _
    case neg =>
    by_cases h16 : k = "accumulators"
    case pos =>
      subst h16
      rw [List.filter_cons_of_pos (by simp [isKnownKey])]
      simp only [readTickFields]
      exact setOnce_congr _ _ _ _ _ fun x => ih _
    case neg =>
      rw [List.filter_cons_of_neg
        (by simp [isKnownKey, h1, h2, h3, h4, h5, h6, h7, h8, h9, h10, h11, h12, h13, h14,
          h15, h16])]
      simp only [readTickFields, if_neg h1, if_neg h2, if_neg h3, if_neg h4, if_neg h5,
        if_neg h6, if_neg h7, if_neg h8, if_neg h9, if_neg h10, if_neg h11, if_neg h12,
        if_neg h13, if_neg h14, if_neg h15, if_neg h16]
      exact ih r

/-- C10: the decoder's result on an object payload depends only on the entries
whose keys are recognized struct fields; entries with unrecognized keys are
ignored wherever they appear, so unknown extra fields never cause a decode
error. -/
theorem unknown_fields_ignored (fs gs : List (String × Json))
    (h : fs.filter (fun p => isKnownKey p.1) = gs.filter (fun p => isKnownKey p.1)) :
    tickFromJson (.obj fs) = tickFromJson (.obj gs) := by
  simp only [tickFromJson]
  rw [readTickFields_filter fs, readTickFields_filter gs, h]

/-- The §8 example payload as an already-parsed JSON object. -/
def exampleFields : List (String × Json) :=
  [("id", .str "a"), ("short_id", .str "a1"), ("event_type", .str "tick"),
   ("stamp", .num false (mkRat 25 2)), ("interval", .num false (mkRat 1 10)),
   ("paused", .bool false), ("stepping", .bool false), ("start_time", .num true 0),
   ("namespace", .str "ns"), ("backpressure", .bool false), ("wall_time", .arr []),
   ("transport", .arr []), ("connected", .bool true), ("accumulators", .obj [])]

/-- The example object with arbitrary unrecognized keys added around it. -/
def exampleFieldsExtra : List (String × Json) :=
  ("extra_header", .num true 1) :: exampleFields ++ [("trailer", .null)]

/-- Witness for C10: the concrete payload with extra unknown keys decodes to
exactly what the payload without them decodes to, and that decode succeeds. -/
theorem unknown_fields_ignored_witness :
    tickFromJson (.obj exampleFieldsExtra) = tickFromJson (.obj exampleFields) ∧
    okB (tickFromJson (.obj exampleFields)) = true :=
  ⟨unknown_fields_ignored exampleFieldsExtra exampleFields (by rfl), by rfl⟩

/-- Number of entries of an object carrying a given key. -/
def keyCount (k : String) : List (String × Json) → Nat
  | [] => 0
  | p :: fs => keyCount k fs + (if p.1 = k then 1 else 0)

@[simp] theorem keyCount_nil (k : String) : keyCount k [] = 0 := rfl

@[simp] theorem keyCount_cons (k : String) (p : String × Json) (fs : List (String × Json)) :
    keyCount k (p :: fs) = keyCount k fs + (if p.1 = k then 1 else 0) := rfl

/-- Number of fills a slot of the partial record has received. -/
def optCount {α : Type} (o : Option α) : Nat :=
  if o.isSome then 1 else 0

@[simp] theorem optCount_none {α : Type} : optCount (none : Option α) = 0 := rfl

@[simp] theorem optCount_some {α : Type} (a : α) : optCount (some a) = 1 := rfl

@[simp] theorem req_some {α : Type} (a : α) (n : String) : req (some a) n = .ok a := rfl

@[simp] theorem req_none {α : Type} (n : String) :
    req (none : Option α) n = .error ("missing field " ++ n) := rfl

/-- A JSON value acceptable for an `i32` slot. -/
def i32Ok : Json → Bool
  | .num true q => decide (q.den = 1 ∧ -(2 ^ 31) ≤ q.num ∧ q.num < 2 ^ 31)
  | _ => false

/-- A JSON value acceptable for a `u64` slot. -/
def u64Ok : Json → Bool
  | .num true q => decide (q.den = 1 ∧ 0 ≤ q.num ∧ q.num < 2 ^ 64)
  | _ => false

/-- A JSON value acceptable for an `Option<String>` slot. -/
def optStrOk (j : Json) : Bool := j.isStr || j.isNull

/-- A JSON value acceptable for a `Vec<i32>` slot. -/
def i32ListOk : Json → Bool
  | .arr xs => xs.all i32Ok
  | _ => false

/-- A JSON value acceptable for a `Vec<String>` slot. -/
def strListOk : Json → Bool
  | .arr xs => xs.all Json.isStr
  | _ => false

/-- Well-typedness of a value for a named `AccumulatorData` field (true for
unrecognized keys, which the decoder ignores). -/
def accFieldTypeOk (k : String) (v : Json) : Bool :=
  if k = "interval" then v.isNum
  else if k = "elapsed" then v.isNum
  else if k = "cycles" then u64Ok v
  else if k = "running" then v.isBool
  else if k = "repeating" then v.isBool
  else true

/-- Shape of a JSON object deserializable as one `AccumulatorData`: the five
fields each occur exactly once with well-typed values, other keys free. -/
def accObjOkB (fs : List (String × Json)) : Bool :=
  (keyCount "interval" fs == 1) && (keyCount "elapsed" fs == 1) &&
  (keyCount "cycles" fs == 1) && (keyCount "running" fs == 1) &&
  (keyCount "repeating" fs == 1) &&
  fs.all fun p => accFieldTypeOk p.1 p.2

/-- A JSON value deserializable as one `AccumulatorData`. -/
def accValueOk : Json → Bool
  | .obj fs => accObjOkB fs
  | _ => false

/-- A JSON value deserializable as the accumulator map. -/
def accMapOk : Json → Bool
  | .obj fs => fs.all fun p => accValueOk p.2
  | _ => false

/-- Well-typedness of a value for a named `TickMessage` field (true for
unrecognized keys, which the decoder ignores). -/
def fieldTypeOk (k : String) (v : Json) : Bool :=
  if k = "id" then v.isStr
  else if k = "short_id" then v.isStr
  else if k = "event_type" then v.isStr
  else if k = "stamp" then v.isNum
  else if k = "interval" then v.isNum
  else if k = "paused" then v.isBool
  else if k = "stepping" then v.isBool
  else if k = "start_time" then v.isNum
  else if k = "namespace" then v.isStr
  else if k = "backpressure" then v.isBool
  else if k = "wall_time" then i32ListOk v
  else if k = "current_choice" then optStrOk v
  else if k = "transport" then strListOk v
  else if k = "disposition" then optStrOk v
  else if k = "connected" then v.isBool
  else if k = "accumulators" then accMapOk v
  else true

/-- Shape of a JSON object deserializable as a `TickMessage`: each required
field occurs exactly once and well-typed, each optional field at most once and
well-typed, unrecognized keys free. -/
def TickObjOk (fs : List (String × Json)) : Prop :=
  keyCount "id" fs = 1 ∧ keyCount "short_id" fs = 1 ∧ keyCount "event_type" fs = 1 ∧
  keyCount "stamp" fs = 1 ∧ keyCount "interval" fs = 1 ∧ keyCount "paused" fs = 1 ∧
  keyCount "stepping" fs = 1 ∧ keyCount "start_time" fs = 1 ∧
  keyCount "namespace" fs = 1 ∧ keyCount "backpressure" fs = 1 ∧
  keyCount "wall_time" fs = 1 ∧ keyCount "current_choice" fs ≤ 1 ∧
  keyCount "transport" fs = 1 ∧ keyCount "disposition" fs ≤ 1 ∧
  keyCount "connected" fs = 1 ∧ keyCount "accumulators" fs = 1 ∧
  ∀ p ∈ fs, fieldTypeOk p.1 p.2 = true

instance (fs : List (String × Json)) : Decidable (TickObjOk fs) := by
  unfold TickObjOk
  exact inferInstance

@[simp] theorem okB_asString (v : Json) : okB (asString v) = v.isStr := by
  cases v <;> rfl

@[simp] theorem okB_asBool (v : Json) : okB (asBool v) = v.isBool := by
  cases v <;> rfl

@[simp] theorem okB_asF64 (v : Json) : okB (asF64 v) = v.isNum := by
  cases v <;> rfl

@[simp] theorem okB_asOptString (v : Json) : okB (asOptString v) = optStrOk v := by
  cases v <;> rfl

@[simp] theorem okB_asI32 (v : Json) : okB (asI32 v) = i32Ok v := by
  cases v with
  | num b q =>
    cases b with
    | false => rfl
    | true =>
      simp only [asI32, i32Ok]
      by_cases h : q.den = 1 ∧ -(2 ^ 31) ≤ q.num ∧ q.num < 2 ^ 31
      · rw [if_pos h]
        simp only [okB_ok]
        exact (decide_eq_true h).symm
      · rw [if_neg h]
        simp only [okB_error]
        exact (decide_eq_false h).symm
  | null => rfl
  | bool b2 => rfl
  | str s => rfl
  | arr xs => rfl
  | obj gs => rfl

@[simp] theorem okB_asU64 (v : Json) : okB (asU64 v) = u64Ok v := by
  cases v with
  | num b q =>
    cases b with
    | false => rfl
    | true =>
      simp only [asU64, u64Ok]
      by_cases h : q.den = 1 ∧ 0 ≤ q.num ∧ q.num < 2 ^ 64
      · rw [if_pos h]
        simp only [okB_ok]
        exact (decide_eq_true h).symm
      · rw [if_neg h]
        simp only [okB_error]
        exact (decide_eq_false h).symm
  | null => rfl
  | bool b2 => rfl
  | str s => rfl
  | arr xs => rfl
  | obj gs => rfl

theorem okB_mapDecode {α : Type} (f : Json → Except String α) (xs : List Json) :
    okB (mapDecode f xs) = xs.all fun x => okB (f x) := by
  induction xs with
  | nil => rfl
  | cons x xs ih =>
    cases hfx : f x with
    | error e => simp [mapDecode, hfx]
    | ok y =>
      cases hm : mapDecode f xs with
      | error e => simp [mapDecode, hfx, hm, ← ih]
      | ok ys => simp [mapDecode, hfx, hm, ← ih]

@[simp] theorem okB_asI32List (v : Json) : okB (asI32List v) = i32ListOk v := by
  cases v with
  | arr xs => simp [asI32List, i32ListOk, okB_mapDecode]
  | null => rfl
  | bool b2 => rfl
  | num b2 q => rfl
  | str s => rfl
  | obj gs => rfl

@[simp] theorem okB_asStringList (v : Json) : okB (asStringList v) = strListOk v := by
  cases v with
  | arr xs => simp [asStringList, strListOk, okB_mapDecode]
  | null => rfl
  | bool b2 => rfl
  | num b2 q => rfl
  | str s => rfl
  | obj gs => rfl

theorem finishAcc_ok (r : RawAcc) :
    okB (finishAcc r) = true ↔
      (optCount r.interval = 1 ∧ optCount r.elapsed = 1 ∧ optCount r.cycles = 1 ∧
       optCount r.running = 1 ∧ optCount r.repeating = 1) := by
  rcases r with ⟨a, b, c, d, e⟩
  cases a <;> cases b <;> cases c <;> cases d <;> cases e <;> simp [finishAcc]

@[simp] theorem setOnce_some {α β : Type} (a : α) (nm : String) (conv : Except String α)
    (cont : α → Except String β) :
    setOnce (some a) nm conv cont = .error ("duplicate field " ++ nm) := rfl

@[simp] theorem setOnce_none {α β : Type} (nm : String) (conv : Except String α)
    (cont : α → Except String β) :
    setOnce (none : Option α) nm conv cont = conv >>= cont := rfl

theorem readAcc_ok_iff (fs : List (String × Json)) (r : RawAcc) :
    okB (readAccFields fs r >>= finishAcc) = true ↔
      (keyCount "interval" fs + optCount r.interval = 1 ∧
       keyCount "elapsed" fs + optCount r.elapsed = 1 ∧
       keyCount "cycles" fs + optCount r.cycles = 1 ∧
       keyCount "running" fs + optCount r.running = 1 ∧
       keyCount "repeating" fs + optCount r.repeating = 1 ∧
       ∀ p ∈ fs, accFieldTypeOk p.1 p.2 = true) := by
  induction fs generalizing r with
  | nil =>
    simp only [readAccFields, except_bind_ok, keyCount_nil, Nat.zero_add]
    rw [finishAcc_ok]
    simp
  | cons p fs ih =>
    obtain ⟨k, v⟩ := p
    rcases r with ⟨f1, f2, f3, f4, f5⟩
    by_cases h1 : k = "interval"
    case pos =>
      subst h1
      rw [show readAccFields (("interval", v) :: fs) ⟨f1, f2, f3, f4, f5⟩ =
        setOnce f1 "interval" (asF64 v)
          (fun x => readAccFields fs ⟨some x, f2, f3, f4, f5⟩) from rfl]
      cases f1 with
      | some a =>
        refine iff_of_false (by simp) ?_
        rintro ⟨hc, -⟩
        simp at hc
      | none =>
        rw [setOnce_none]
        cases hv : asF64 v with
        | error e =>
          have hvn : v.isNum = false := by
            have h4 := okB_asF64 v
            rw [hv] at h4
            exact h4.symm
          refine iff_of_false (by simp) ?_
          rintro ⟨-, -, -, -, -, hall⟩
          have h2 := hall ("interval", v) (List.mem_cons_self _ _)
          simp [accFieldTypeOk, hvn] at h2
        | ok x =>
          have hvn : v.isNum = true := by
            have h4 := okB_asF64 v
            rw [hv] at h4
            exact h4.symm
          rw [except_bind_ok, ih]
          simp [List.forall_mem_cons, accFieldTypeOk, hvn]
    case neg =>
    by_cases h2 : k = "elapsed"
    case pos =>
      subst h2
      rw [show readAccFields (("elapsed", v) :: fs) ⟨f1, f2, f3, f4, f5⟩ =
        setOnce f2 "elapsed" (asF64 v)
          (fun x => readAccFields fs ⟨f1, some x, f3, f4, f5⟩) from rfl]
      cases f2 with
      | some a =>
        refine iff_of_false (by simp) ?_
        rintro ⟨-, hc, -⟩
        simp at hc
      | none =>
        rw [setOnce_none]
        cases hv : asF64 v with
        | error e =>
          have hvn : v.isNum = false := by
            have h4 := okB_asF64 v
            rw [hv] at h4
            exact h4.symm
          refine iff_of_false (by simp) ?_
          rintro ⟨-, -, -, -, -, hall⟩
          have hc := hall ("elapsed", v) (List.mem_cons_self _ _)
          simp [accFieldTypeOk, hvn] at hc
        | ok x =>
          have hvn : v.isNum = true := by
            have h4 := okB_asF64 v
            rw [hv] at h4
            exact h4.symm
          rw [except_bind_ok, ih]
          simp [List.forall_mem_cons, accFieldTypeOk, hvn, h1]
    case neg =>
    by_cases h3 : k = "cycles"
    case pos =>
      subst h3
      rw [show readAccFields (("cycles", v) :: fs) ⟨f1, f2, f3, f4, f5⟩ =
        setOnce f3 "cycles" (asU64 v)
          (fun x => readAccFields fs ⟨f1, f2, some x, f4, f5⟩) from rfl]
      cases f3 with
      | some a =>
        refine iff_of_false (by simp) ?_
        rintro ⟨-, -, hc, -⟩
        simp at hc
      | none =>
        rw [setOnce_none]
        cases hv : asU64 v with
        | error e =>
          have hvn : u64Ok v = false := by
            have h4 := okB_asU64 v
            rw [hv] at h4
            exact h4.symm
          refine iff_of_false (by simp) ?_
          rintro ⟨-, -, -, -, -, hall⟩
          have hc := hall ("cycles", v) (List.mem_cons_self _ _)
          simp [accFieldTypeOk, hvn] at hc
        | ok x =>
          have hvn : u64Ok v = true := by
            have h4 := okB_asU64 v
            rw [hv] at h4
            exact h4.symm
          rw [except_bind_ok, ih]
          simp [List.forall_mem_cons, accFieldTypeOk, hvn, h1, h2]
    case neg =>
    by_cases h4 : k = "running"
    case pos =>
      subst h4
      rw [show readAccFields (("running", v) :: fs) ⟨f1, f2, f3, f4, f5⟩ =
        setOnce f4 "running" (asBool v)
          (fun x => readAccFields fs ⟨f1, f2, f3, some x, f5⟩) from rfl]
      cases f4 with
      | some a =>
        refine iff_of_false (by simp) ?_
        rintro ⟨-, -, -, hc, -⟩
        simp at hc
      | none =>
        rw [setOnce_none]
        cases hv : asBool v with
        | error e =>
          have hvn : v.isBool = false := by
            have h5 := okB_asBool v
            rw [hv] at h5
            exact h5.symm
          refine iff_of_false (by simp) ?_
          rintro ⟨-, -, -, -, -, hall⟩
          have hc := hall ("running", v) (List.mem_cons_self _ _)
          simp [accFieldTypeOk, hvn] at hc
        | ok x =>
          have hvn : v.isBool = true := by
            have h5 := okB_asBool v
            rw [hv] at h5
            exact h5.symm
          rw [except_bind_ok, ih]
          simp [List.forall_mem_cons, accFieldTypeOk, hvn, h1, h2, h3]
    case neg =>
    by_cases h5 : k = "repeating"
    case pos =>
      subst h5
      rw [show readAccFields (("repeating", v) :: fs) ⟨f1, f2, f3, f4, f5⟩ =
        setOnce f5 "repeating" (asBool v)
          (fun x => readAccFields fs ⟨f1, f2, f3, f4, some x⟩) from rfl]
      cases f5 with
      | some a =>
        refine iff_of_false (by simp) ?_
        rintro ⟨-, -, -, -, hc, -⟩
        simp at hc
      | none =>
        rw [setOnce_none]
        cases hv : asBool v with
        | error e =>
          have hvn : v.isBool = false := by
            have h6 := okB_asBool v
            rw [hv] at h6
            exact h6.symm
          refine iff_of_false (by simp) ?_
          rintro ⟨-, -, -, -, -, hall⟩
          have hc := hall ("repeating", v) (List.mem_cons_self _ _)
          simp [accFieldTypeOk, hvn] at hc
        | ok x =>
          have hvn : v.isBool = true := by
            have h6 := okB_asBool v
            rw [hv] at h6
            exact h6.symm
          rw [except_bind_ok, ih]
          simp [List.forall_mem_cons, accFieldTypeOk, hvn, h1, h2, h3, h4]
    case neg =>
      rw [show readAccFields ((k, v) :: fs) ⟨f1, f2, f3, f4, f5⟩ =
        (if k = "interval" then
          setOnce f1 "interval" (asF64 v)
            (fun x => readAccFields fs ⟨some x, f2, f3, f4, f5⟩)
        else if k = "elapsed" then
          setOnce f2 "elapsed" (asF64 v)
            (fun x => readAccFields fs ⟨f1, some x, f3, f4, f5⟩)
        else if k = "cycles" then
          setOnce f3 "cycles" (asU64 v)
            (fun x => readAccFields fs ⟨f1, f2, some x, f4, f5⟩)
        else if k = "running" then
          setOnce f4 "running" (asBool v)
            (fun x => readAccFields fs ⟨f1, f2, f3, some x, f5⟩)
        else if k = "repeating" then
          setOnce f5 "repeating" (asBool v)
            (fun x => readAccFields fs ⟨f1, f2, f3, f4, some x⟩)
        else readAccFields fs ⟨f1, f2, f3, f4, f5⟩) from rfl]
      rw [if_neg h1, if_neg h2, if_neg h3, if_neg h4, if_neg h5, ih]
      simp [List.forall_mem_cons, accFieldTypeOk, h1, h2, h3, h4, h5]

theorem accObjOkB_iff (fs : List (String × Json)) :
    accObjOkB fs = true ↔
      (keyCount "interval" fs = 1 ∧ keyCount "elapsed" fs = 1 ∧ keyCount "cycles" fs = 1 ∧
       keyCount "running" fs = 1 ∧ keyCount "repeating" fs = 1 ∧
       ∀ p ∈ fs, accFieldTypeOk p.1 p.2 = true) := by
  simp [accObjOkB, and_assoc]

theorem okB_accFromJson (j : Json) : okB (accFromJson j) = accValueOk j := by
  cases j with
  | obj fs =>
    rw [show accFromJson (.obj fs) =
      readAccFields fs ⟨none, none, none, none, none⟩ >>= finishAcc from rfl]
    rw [show accValueOk (.obj fs) = accObjOkB fs from rfl]
    cases hok : okB (readAccFields fs ⟨none, none, none, none, none⟩ >>= finishAcc) with
    | true =>
      have h := (readAcc_ok_iff fs ⟨none, none, none, none, none⟩).mp hok
      symm
      rw [accObjOkB_iff]
      simpa using h
    | false =>
      symm
      cases hacc : accObjOkB fs with
      | false => rfl
      | true =>
        exfalso
        have h := (accObjOkB_iff fs).mp hacc
        have h2 : okB (readAccFields fs ⟨none, none, none, none, none⟩ >>= finishAcc) = true := by
          rw [readAcc_ok_iff]
          simpa using h
        rw [hok] at h2
        cases h2
  | null => rfl
  | bool b => rfl
  | num b q => rfl
  | str s => rfl
  | arr xs => rfl

theorem okB_readAccEntries (fs : List (String × Json)) (m : List (String × AccumulatorData)) :
    okB (readAccEntries m fs) = fs.all fun p => okB (accFromJson p.2) := by
  induction fs generalizing m with
  | nil => rfl
  | cons p fs ih =>
    obtain ⟨k, v⟩ := p
    cases ha : accFromJson v with
    | error e => simp [readAccEntries, ha]
    | ok a => simp [readAccEntries, ha, ih]

@[simp] theorem okB_asAccMap (v : Json) : okB (asAccMap v) = accMapOk v := by
  cases v with
  | obj fs =>
    rw [show asAccMap (.obj fs) = readAccEntries [] fs from rfl, okB_readAccEntries]
    simp [accMapOk, okB_accFromJson]
  | null => rfl
  | bool b => rfl
  | num b q => rfl
  | str s => rfl
  | arr xs => rfl

theorem finishTick_ok (r : RawTick) :
    okB (finishTick r) = true ↔
      (optCount r.id = 1 ∧ optCount r.short_id = 1 ∧ optCount r.event_type = 1 ∧
       optCount r.stamp = 1 ∧ optCount r.interval = 1 ∧ optCount r.paused = 1 ∧
       optCount r.stepping = 1 ∧ optCount r.start_time = 1 ∧
       optCount r.«namespace» = 1 ∧ optCount r.backpressure = 1 ∧
       optCount r.wall_time = 1 ∧ optCount r.transport = 1 ∧
       optCount r.connected = 1 ∧ optCount r.accumulators = 1) := by
  rcases r with ⟨a1, a2, a3, a4, a5, a6, a7, a8, a9, a10, a11, a12, a13, a14, a15, a16⟩
  cases a1 with
  | none => simp [finishTick]
  | some x1 =>
  cases a2 with
  | none => simp [finishTick]
  | some x2 =>
  cases a3 with
  | none => simp [finishTick]
  | some x3 =>
  cases a4 with
  | none => simp [finishTick]
  | some x4 =>
  cases a5 with
  | none => simp [finishTick]
  | some x5 =>
  cases a6 with
  | none => simp [finishTick]
  | some x6 =>
  cases a7 with
  | none => simp [finishTick]
  | some x7 =>
  cases a8 with
  | none => simp [finishTick]
  | some x8 =>
  cases a9 with
  | none => simp [finishTick]
  | some x9 =>
  cases a10 with
  | none => simp [finishTick]
  | some x10 =>
  cases a11 with
  | none => simp [finishTick]
  | some x11 =>
  cases a13 with
  | none => simp [finishTick]
  | some x13 =>
  cases a15 with
  | none => simp [finishTick]
  | some x15 =>
  cases a16 with
  | none => simp [finishTick]
  | some x16 => simp [finishTick]

theorem optCount_le_one {α : Type} (o : Option α) : optCount o ≤ 1 := by
  cases o <;> simp

set_option maxHeartbeats 2000000 in
theorem readTick_ok_iff (fs : List (String × Json)) (r : RawTick) :
    okB (readTickFields fs r >>= finishTick) = true ↔
      (keyCount "id" fs + optCount r.id = 1 ∧
       keyCount "short_id" fs + optCount r.short_id = 1 ∧
       keyCount "event_type" fs + optCount r.event_type = 1 ∧
       keyCount "stamp" fs + optCount r.stamp = 1 ∧
       keyCount "interval" fs + optCount r.interval = 1 ∧
       keyCount "paused" fs + optCount r.paused = 1 ∧
       keyCount "stepping" fs + optCount r.stepping = 1 ∧
       keyCount "start_time" fs + optCount r.start_time = 1 ∧
       keyCount "namespace" fs + optCount r.«namespace» = 1 ∧
       keyCount "backpressure" fs + optCount r.backpressure = 1 ∧
       keyCount "wall_time" fs + optCount r.wall_time = 1 ∧
       keyCount "current_choice" fs + optCount r.current_choice ≤ 1 ∧
       keyCount "transport" fs + optCount r.transport = 1 ∧
       keyCount "disposition" fs + optCount r.disposition ≤ 1 ∧
       keyCount "connected" fs + optCount r.connected = 1 ∧
       keyCount "accumulators" fs + optCount r.accumulators = 1 ∧
       ∀ p ∈ fs, fieldTypeOk p.1 p.2 = true) := by
  induction fs generalizing r with
  | nil =>
    simp only [readTickFields, except_bind_ok, keyCount_nil, Nat.zero_add]
    rw [finishTick_ok]
    simp [optCount_le_one]
  | cons p fs ih =>
    obtain ⟨k, v⟩ := p
    rcases r with ⟨f1, f2, f3, f4, f5, f6, f7, f8, f9, f10, f11, f12, f13, f14, f15, f16⟩
    by_cases h1 : k = "id"
    case pos =>
      subst h1
      rw [show readTickFields (("id", v) :: fs) ⟨f1, f2, f3, f4, f5, f6, f7, f8, f9, f10, f11, f12, f13, f14, f15, f16⟩ =
        setOnce f1 "id" (asString v)
          (fun x => readTickFields fs ⟨some x, f2, f3, f4, f5, f6, f7, f8, f9, f10, f11, f12, f13, f14, f15, f16⟩) from rfl]
      cases f1 with
      | some a =>
        refine iff_of_false (by simp) ?_
        rintro ⟨hc, -⟩
        simp at hc
      | none =>
        rw [setOnce_none]
        cases hv : asString v with
        | error e =>
          have hvn : v.isStr = false := by
            have hx := okB_asString v
            rw [hv] at hx
            exact hx.symm
          refine iff_of_false (by simp) ?_
          rintro ⟨-, -, -, -, -, -, -, -, -, -, -, -, -, -, -, -, hall⟩
          have hc := hall ("id", v) (List.mem_cons_self _ _)
          simp [fieldTypeOk, hvn] at hc
        | ok x =>
          have hvn : v.isStr = true := by
            have hx := okB_asString v
            rw [hv] at hx
            exact hx.symm
          have hft : fieldTypeOk "id" v = true := by
            simp [fieldTypeOk, hvn]
          rw [except_bind_ok, ih]
          simp [List.forall_mem_cons, hft]
    case neg =>
    by_cases h2 : k = "short_id"
    case pos =>
      subst h2
      rw [show readTickFields (("short_id", v) :: fs) ⟨f1, f2, f3, f4, f5, f6, f7, f8, f9, f10, f11, f12, f13, f14, f15, f16⟩ =
        setOnce f2 "short_id" (asString v)
          (fun x => readTickFields fs ⟨f1, some x, f3, f4, f5, f6, f7, f8, f9, f10, f11, f12, f13, f14, f15, f16⟩) from rfl]
      cases f2 with
      | some a =>
        refine iff_of_false (by simp) ?_
        rintro ⟨-, hc, -⟩
        simp at hc
      | none =>
        rw [setOnce_none]
        cases hv : asString v with
        | error e =>
          have hvn : v.isStr = false := by
            have hx := okB_asString v
            rw [hv] at hx
            exact hx.symm
          refine iff_of_false (by simp) ?_
          rintro ⟨-, -, -, -, -, -, -, -, -, -, -, -, -, -, -, -, hall⟩
          have hc := hall ("short_id", v) (List.mem_cons_self _ _)
          simp [fieldTypeOk, hvn] at hc
        | ok x =>
          have hvn : v.isStr = true := by
            have hx := okB_asString v
            rw [hv] at hx
            exact hx.symm
          have hft : fieldTypeOk "short_id" v = true := by
            simp [fieldTypeOk, hvn]
          rw [except_bind_ok, ih]
          simp [List.forall_mem_cons, hft]
    case neg =>
    by_cases h3 : k = "event_type"
    case pos =>
      subst h3
      rw [show readTickFields (("event_type", v) :: fs) ⟨f1, f2, f3, f4, f5, f6, f7, f8, f9, f10, f11, f12, f13, f14, f15, f16⟩ =
        setOnce f3 "event_type" (asString v)
          (fun x => readTickFields fs ⟨f1, f2, some x, f4, f5, f6, f7, f8, f9, f10, f11, f12, f13, f14, f15, f16⟩) from rfl]
      cases f3 with
      | some a =>
        refine iff_of_false (by simp) ?_
        rintro ⟨-, -, hc, -⟩
        simp at hc
      | none =>
        rw [setOnce_none]
        cases hv : asString v with
        | error e =>
          have hvn : v.isStr = false := by
            have hx := okB_asString v
            rw [hv] at hx
            exact hx.symm
          refine iff_of_false (by simp) ?_
          rintro ⟨-, -, -, -, -, -, -, -, -, -, -, -, -, -, -, -, hall⟩
          have hc := hall ("event_type", v) (List.mem_cons_self _ _)
          simp [fieldTypeOk, hvn] at hc
        | ok x =>
          have hvn : v.isStr = true := by
            have hx := okB_asString v
            rw [hv] at hx
            exact hx.symm
          have hft : fieldTypeOk "event_type" v = true := by
            simp [fieldTypeOk, hvn]
          rw [except_bind_ok, ih]
          simp [List.forall_mem_cons, hft]
    case neg =>
    by_cases h4 : k = "stamp"
    case pos =>
      subst h4
      rw [show readTickFields (("stamp", v) :: fs) ⟨f1, f2, f3, f4, f5, f6, f7, f8, f9, f10, f11, f12, f13, f14, f15, f16⟩ =
        setOnce f4 "stamp" (asF64 v)
          (fun x => readTickFields fs ⟨f1, f2, f3, some x, f5, f6, f7, f8, f9, f10, f11, f12, f13, f14, f15, f16⟩) from rfl]
      cases f4 with
      | some a =>
        refine iff_of_false (by simp) ?_
        rintro ⟨-, -, -, hc, -⟩
        simp at hc
      | none =>
        rw [setOnce_none]
        cases hv : asF64 v with
        | error e =>
          have hvn : v.isNum = false := by
            have hx := okB_asF64 v
            rw [hv] at hx
            exact hx.symm
          refine iff_of_false (by simp) ?_
          rintro ⟨-, -, -, -, -, -, -, -, -, -, -, -, -, -, -, -, hall⟩
          have hc := hall ("stamp", v) (List.mem_cons_self _ _)
          simp [fieldTypeOk, hvn] at hc
        | ok x =>
          have hvn : v.isNum = true := by
            have hx := okB_asF64 v
            rw [hv] at hx
            exact hx.symm
          have hft : fieldTypeOk "stamp" v = true := by
            simp [fieldTypeOk, hvn]
          rw [except_bind_ok, ih]
          simp [List.forall_mem_cons, hft]
    case neg =>
    by_cases h5 : k = "interval"
    case pos =>
      subst h5
      rw [show readTickFields (("interval", v) :: fs) ⟨f1, f2, f3, f4, f5, f6, f7, f8, f9, f10, f11, f12, f13, f14, f15, f16⟩ =
        setOnce f5 "interval" (asF64 v)
          (fun x => readTickFields fs ⟨f1, f2, f3, f4, some x, f6, f7, f8, f9, f10, f11, f12, f13, f14, f15, f16⟩) from rfl]
      cases f5 with
      | some a =>
        refine iff_of_false (by simp) ?_
        rintro ⟨-, -, -, -, hc, -⟩
        simp at hc
      | none =>
        rw [setOnce_none]
        cases hv : asF64 v with
        | error e =>
          have hvn : v.isNum = false := by
            have hx := okB_asF64 v
            rw [hv] at hx
            exact hx.symm
          refine iff_of_false (by simp) ?_
          rintro ⟨-, -, -, -, -, -, -, -, -, -, -, -, -, -, -, -, hall⟩
          have hc := hall ("interval", v) (List.mem_cons_self _ _)
          simp [fieldTypeOk, hvn] at hc
        | ok x =>
          have hvn : v.isNum = true := by
            have hx := okB_asF64 v
            rw [hv] at hx
            exact hx.symm
          have hft : fieldTypeOk "interval" v = true := by
            simp [fieldTypeOk, hvn]
          rw [except_bind_ok, ih]
          simp [List.forall_mem_cons, hft]
    case neg =>
    by_cases h6 : k = "paused"
    case pos =>
      subst h6
      rw [show readTickFields (("paused", v) :: fs) ⟨f1, f2, f3, f4, f5, f6, f7, f8, f9, f10, f11, f12, f13, f14, f15, f16⟩ =
        setOnce f6 "paused" (asBool v)
          (fun x => readTickFields fs ⟨f1, f2, f3, f4, f5, some x, f7, f8, f9, f10, f11, f12, f13, f14, f15, f16⟩) from rfl]
      cases f6 with
      | some a =>
        refine iff_of_false (by simp) ?_
        rintro ⟨-, -, -, -, -, hc, -⟩
        simp at hc
      | none =>
        rw [setOnce_none]
        cases hv : asBool v with
        | error e =>
          have hvn : v.isBool = false := by
            have hx := okB_asBool v
            rw [hv] at hx
            exact hx.symm
          refine iff_of_false (by simp) ?_
          rintro ⟨-, -, -, -, -, -, -, -, -, -, -, -, -, -, -, -, hall⟩
          have hc := hall ("paused", v) (List.mem_cons_self _ _)
          simp [fieldTypeOk, hvn] at hc
        | ok x =>
          have hvn : v.isBool = true := by
            have hx := okB_asBool v
            rw [hv] at hx
            exact hx.symm
          have hft : fieldTypeOk "paused" v = true := by
            simp [fieldTypeOk, hvn]
          rw [except_bind_ok, ih]
          simp [List.forall_mem_cons, hft]
    case neg =>
    by_cases h7 : k = "stepping"
    case pos =>
      subst h7
      rw [show readTickFields (("stepping", v) :: fs) ⟨f1, f2, f3, f4, f5, f6, f7, f8, f9, f10, f11, f12, f13, f14, f15, f16⟩ =
        setOnce f7 "stepping" (asBool v)
          (fun x => readTickFields fs ⟨f1, f2, f3, f4, f5, f6, some x, f8, f9, f10, f11, f12, f13, f14, f15, f16⟩) from rfl]
      cases f7 with
      | some a =>
        refine iff_of_false (by simp) ?_
        rintro ⟨-, -, -, -, -, -, hc, -⟩
        simp at hc
      | none =>
        rw [setOnce_none]
        cases hv : asBool v with
        | error e =>
          have hvn : v.isBool = false := by
            have hx := okB_asBool v
            rw [hv] at hx
            exact hx.symm
          refine iff_of_false (by simp) ?_
          rintro ⟨-, -, -, -, -, -, -, -, -, -, -, -, -, -, -, -, hall⟩
          have hc := hall ("stepping", v) (List.mem_cons_self _ _)
          simp [fieldTypeOk, hvn] at hc
        | ok x =>
          have hvn : v.isBool = true := by
            have hx := okB_asBool v
            rw [hv] at hx
            exact hx.symm
          have hft : fieldTypeOk "stepping" v = true := by
            simp [fieldTypeOk, hvn]
          rw [except_bind_ok, ih]
          simp [List.forall_mem_cons, hft]
    case neg =>
    by_cases h8 : k = "start_time"
    case pos =>
      subst h8
      rw [show readTickFields (("start_time", v) :: fs) ⟨f1, f2, f3, f4, f5, f6, f7, f8, f9, f10, f11, f12, f13, f14, f15, f16⟩ =
        setOnce f8 "start_time" (asF64 v)
          (fun x => readTickFields fs ⟨f1, f2, f3, f4, f5, f6, f7, some x, f9, f10, f11, f12, f13, f14, f15, f16⟩) from rfl]
      cases f8 with
      | some a =>
        refine iff_of_false (by simp) ?_
        rintro ⟨-, -, -, -, -, -, -, hc, -⟩
        simp at hc
      | none =>
        rw [setOnce_none]
        cases hv : asF64 v with
        | error e =>
          have hvn : v.isNum = false := by
            have hx := okB_asF64 v
            rw [hv] at hx
            exact hx.symm
          refine iff_of_false (by simp) ?_
          rintro ⟨-, -, -, -, -, -, -, -, -, -, -, -, -, -, -, -, hall⟩
          have hc := hall ("start_time", v) (List.mem_cons_self _ _)
          simp [fieldTypeOk, hvn] at hc
        | ok x =>
          have hvn : v.isNum = true := by
            have hx := okB_asF64 v
            rw [hv] at hx
            exact hx.symm
          have hft : fieldTypeOk "start_time" v = true := by
            simp [fieldTypeOk, hvn]
          rw [except_bind_ok, ih]
          simp [List.forall_mem_cons, hft]
    case neg =>
    by_cases h9 : k = "namespace"
    case pos =>
      subst h9
      rw [show readTickFields (("namespace", v) :: fs) ⟨f1, f2, f3, f4, f5, f6, f7, f8, f9, f10, f11, f12, f13, f14, f15, f16⟩ =
        setOnce f9 "namespace" (asString v)
          (fun x => readTickFields fs ⟨f1, f2, f3, f4, f5, f6, f7, f8, some x, f10, f11, f12, f13, f14, f15, f16⟩) from rfl]
      cases f9 with
      | some a =>
        refine iff_of_false (by simp) ?_
        rintro ⟨-, -, -, -, -, -, -, -, hc, -⟩
        simp at hc
      | none =>
        rw [setOnce_none]
        cases hv : asString v with
        | error e =>
          have hvn : v.isStr = false := by
            have hx := okB_asString v
            rw [hv] at hx
            exact hx.symm
          refine iff_of_false (by simp) ?_
          rintro ⟨-, -, -, -, -, -, -, -, -, -, -, -, -, -, -, -, hall⟩
          have hc := hall ("namespace", v) (List.mem_cons_self _ _)
          simp [fieldTypeOk, hvn] at hc
        | ok x =>
          have hvn : v.isStr = true := by
            have hx := okB_asString v
            rw [hv] at hx
            exact hx.symm
          have hft : fieldTypeOk "namespace" v = true := by
            simp [fieldTypeOk, hvn]
          rw [except_bind_ok, ih]
          simp [List.forall_mem_cons, hft]
    case neg =>
    by_cases h10 : k = "backpressure"
    case pos =>
      subst h10
      rw [show readTickFields (("backpressure", v) :: fs) ⟨f1, f2, f3, f4, f5, f6, f7, f8, f9, f10, f11, f12, f13, f14, f15, f16⟩ =
        setOnce f10 "backpressure" (asBool v)
          (fun x => readTickFields fs ⟨f1, f2, f3, f4, f5, f6, f7, f8, f9, some x, f11, f12, f13, f14, f15, f16⟩) from rfl]
      cases f10 with
      | some a =>
        refine iff_of_false (by simp) ?_
        rintro ⟨-, -, -, -, -, -, -, -, -, hc, -⟩
        simp at hc
      | none =>
        rw [setOnce_none]
        cases hv : asBool v with
        | error e =>
          have hvn : v.isBool = false := by
            have hx := okB_asBool v
            rw [hv] at hx
            exact hx.symm
          refine iff_of_false (by simp) ?_
          rintro ⟨-, -, -, -, -, -, -, -, -, -, -, -, -, -, -, -, hall⟩
          have hc := hall ("backpressure", v) (List.mem_cons_self _ _)
          simp [fieldTypeOk, hvn] at hc
        | ok x =>
          have hvn : v.isBool = true := by
            have hx := okB_asBool v
            rw [hv] at hx
            exact hx.symm
          have hft : fieldTypeOk "backpressure" v = true := by
            simp [fieldTypeOk, hvn]
          rw [except_bind_ok, ih]
          simp [List.forall_mem_cons, hft]
    case neg =>
    by_cases h11 : k = "wall_time"
    case pos =>
      subst h11
      rw [show readTickFields (("wall_time", v) :: fs) ⟨f1, f2, f3, f4, f5, f6, f7, f8, f9, f10, f11, f12, f13, f14, f15, f16⟩ =
        setOnce f11 "wall_time" (asI32List v)
          (fun x => readTickFields fs ⟨f1, f2, f3, f4, f5, f6, f7, f8, f9, f10, some x, f12, f13, f14, f15, f16⟩) from rfl]
      cases f11 with
      | some a =>
        refine iff_of_false (by simp) ?_
        rintro ⟨-, -, -, -, -, -, -, -, -, -, hc, -⟩
        simp at hc
      | none =>
        rw [setOnce_none]
        cases hv : asI32List v with
        | error e =>
          have hvn : i32ListOk v = false := by
            have hx := okB_asI32List v
            rw [hv] at hx
            exact hx.symm
          refine iff_of_false (by simp) ?_
          rintro ⟨-, -, -, -, -, -, -, -, -, -, -, -, -, -, -, -, hall⟩
          have hc := hall ("wall_time", v) (List.mem_cons_self _ _)
          simp [fieldTypeOk, hvn] at hc
        | ok x =>
          have hvn : i32ListOk v = true := by
            have hx := okB_asI32List v
            rw [hv] at hx
            exact hx.symm
          have hft : fieldTypeOk "wall_time" v = true := by
            simp [fieldTypeOk, hvn]
          rw [except_bind_ok, ih]
          simp [List.forall_mem_cons, hft]
    case neg =>
    by_cases h12 : k = "current_choice"
    case pos =>
      subst h12
      rw [show readTickFields (("current_choice", v) :: fs) ⟨f1, f2, f3, f4, f5, f6, f7, f8, f9, f10, f11, f12, f13, f14, f15, f16⟩ =
        setOnce f12 "current_choice" (asOptString v)
          (fun x => readTickFields fs ⟨f1, f2, f3, f4, f5, f6, f7, f8, f9, f10, f11, some x, f13, f14, f15, f16⟩) from rfl]
      cases f12 with
      | some a =>
        refine iff_of_false (by simp) ?_
        rintro ⟨-, -, -, -, -, -, -, -, -, -, -, hc, -⟩
        simp at hc
      | none =>
        rw [setOnce_none]
        cases hv : asOptString v with
        | error e =>
          have hvn : optStrOk v = false := by
            have hx := okB_asOptString v
            rw [hv] at hx
            exact hx.symm
          refine iff_of_false (by simp) ?_
          rintro ⟨-, -, -, -, -, -, -, -, -, -, -, -, -, -, -, -, hall⟩
          have hc := hall ("current_choice", v) (List.mem_cons_self _ _)
          simp [fieldTypeOk, hvn] at hc
        | ok x =>
          have hvn : optStrOk v = true := by
            have hx := okB_asOptString v
            rw [hv] at hx
            exact hx.symm
          have hft : fieldTypeOk "current_choice" v = true := by
            simp [fieldTypeOk, hvn]
          rw [except_bind_ok, ih]
          simp [List.forall_mem_cons, hft]
    case neg =>
    by_cases h13 : k = "transport"
    case pos =>
      subst h13
      rw [show readTickFields (("transport", v) :: fs) ⟨f1, f2, f3, f4, f5, f6, f7, f8, f9, f10, f11, f12, f13, f14, f15, f16⟩ =
        setOnce f13 "transport" (asStringList v)
          (fun x => readTickFields fs ⟨f1, f2, f3, f4, f5, f6, f7, f8, f9, f10, f11, f12, some x, f14, f15, f16⟩) from rfl]
      cases f13 with
      | some a =>
        refine iff_of_false (by simp) ?_
        rintro ⟨-, -, -, -, -, -, -, -, -, -, -, -, hc, -⟩
        simp at hc
      | none =>
        rw [setOnce_none]
        cases hv : asStringList v with
        | error e =>
          have hvn : strListOk v = false := by
            have hx := okB_asStringList v
            rw [hv] at hx
            exact hx.symm
          refine iff_of_false (by simp) ?_
          rintro ⟨-, -, -, -, -, -, -, -, -, -, -, -, -, -, -, -, hall⟩
          have hc := hall ("transport", v) (List.mem_cons_self _ _)
          simp [fieldTypeOk, hvn] at hc
        | ok x =>
          have hvn : strListOk v = true := by
            have hx := okB_asStringList v
            rw [hv] at hx
            exact hx.symm
          have hft : fieldTypeOk "transport" v = true := by
            simp [fieldTypeOk, hvn]
          rw [except_bind_ok, ih]
          simp [List.forall_mem_cons, hft]
    case neg =>
    by_cases h14 : k = "disposition"
    case pos =>
      subst h14
      rw [show readTickFields (("disposition", v) :: fs) ⟨f1, f2, f3, f4, f5, f6, f7, f8, f9, f10, f11, f12, f13, f14, f15, f16⟩ =
        setOnce f14 "disposition" (asOptString v)
          (fun x => readTickFields fs ⟨f1, f2, f3, f4, f5, f6, f7, f8, f9, f10, f11, f12, f13, some x, f15, f16⟩) from rfl]
      cases f14 with
      | some a =>
        refine iff_of_false (by simp) ?_
        rintro ⟨-, -, -, -, -, -, -, -, -, -, -, -, -, hc, -⟩
        simp at hc
      | none =>
        rw [setOnce_none]
        cases hv : asOptString v with
        | error e =>
          have hvn : optStrOk v = false := by
            have hx := okB_asOptString v
            rw [hv] at hx
            exact hx.symm
          refine iff_of_false (by simp) ?_
          rintro ⟨-, -, -, -, -, -, -, -, -, -, -, -, -, -, -, -, hall⟩
          have hc := hall ("disposition", v) (List.mem_cons_self _ _)
          simp [fieldTypeOk, hvn] at hc
        | ok x =>
          have hvn : optStrOk v = true := by
            have hx := okB_asOptString v
            rw [hv] at hx
            exact hx.symm
          have hft : fieldTypeOk "disposition" v = true := by
            simp [fieldTypeOk, hvn]
          rw [except_bind_ok, ih]
          simp [List.forall_mem_cons, hft]
    case neg =>
    by_cases h15 : k = "connected"
    case pos =>
      subst h15
      rw [show readTickFields (("connected", v) :: fs) ⟨f1, f2, f3, f4, f5, f6, f7, f8, f9, f10, f11, f12, f13, f14, f15, f16⟩ =
        setOnce f15 "connected" (asBool v)
          (fun x => readTickFields fs ⟨f1, f2, f3, f4, f5, f6, f7, f8, f9, f10, f11, f12, f13, f14, some x, f16⟩) from rfl]
      cases f15 with
      | some a =>
        refine iff_of_false (by simp) ?_
        rintro ⟨-, -, -, -, -, -, -, -, -, -, -, -, -, -, hc, -⟩
        simp at hc
      | none =>
        rw [setOnce_none]
        cases hv : asBool v with
        | error e =>
          have hvn : v.isBool = false := by
            have hx := okB_asBool v
            rw [hv] at hx
            exact hx.symm
          refine iff_of_false (by simp) ?_
          rintro ⟨-, -, -, -, -, -, -, -, -, -, -, -, -, -, -, -, hall⟩
          have hc := hall ("connected", v) (List.mem_cons_self _ _)
          simp [fieldTypeOk, hvn] at hc
        | ok x =>
          have hvn : v.isBool = true := by
            have hx := okB_asBool v
            rw [hv] at hx
            exact hx.symm
          have hft : fieldTypeOk "connected" v = true := by
            simp [fieldTypeOk, hvn]
          rw [except_bind_ok, ih]
          simp [List.forall_mem_cons, hft]
    case neg =>
    by_cases h16 : k = "accumulators"
    case pos =>
      subst h16
      rw [show readTickFields (("accumulators", v) :: fs) ⟨f1, f2, f3, f4, f5, f6, f7, f8, f9, f10, f11, f12, f13, f14, f15, f16⟩ =
        setOnce f16 "accumulators" (asAccMap v)
          (fun x => readTickFields fs ⟨f1, f2, f3, f4, f5, f6, f7, f8, f9, f10, f11, f12, f13, f14, f15, some x⟩) from rfl]
      cases f16 with
      | some a =>
        refine iff_of_false (by simp) ?_
        rintro ⟨-, -, -, -, -, -, -, -, -, -, -, -, -, -, -, hc, -⟩
        simp at hc
      | none =>
        rw [setOnce_none]
        cases hv : asAccMap v with
        | error e =>
          have hvn : accMapOk v = false := by
            have hx := okB_asAccMap v
            rw [hv] at hx
            exact hx.symm
          refine iff_of_false (by simp) ?_
          rintro ⟨-, -, -, -, -, -, -, -, -, -, -, -, -, -, -, -, hall⟩
          have hc := hall ("accumulators", v) (List.mem_cons_self _ _)
          simp [fieldTypeOk, hvn] at hc
        | ok x =>
          have hvn : accMapOk v = true := by
            have hx := okB_asAccMap v
            rw [hv] at hx
            exact hx.symm
          have hft : fieldTypeOk "accumulators" v = true := by
            simp [fieldTypeOk, hvn]
          rw [except_bind_ok, ih]
          simp [List.forall_mem_cons, hft]
    case neg =>
      rw [show readTickFields ((k, v) :: fs) ⟨f1, f2, f3, f4, f5, f6, f7, f8, f9, f10, f11, f12, f13, f14, f15, f16⟩ =
        (if k = "id" then
          setOnce f1 "id" (asString v)
            (fun x => readTickFields fs ⟨some x, f2, f3, f4, f5, f6, f7, f8, f9, f10, f11, f12, f13, f14, f15, f16⟩)
        else if k = "short_id" then
          setOnce f2 "short_id" (asString v)
            (fun x => readTickFields fs ⟨f1, some x, f3, f4, f5, f6, f7, f8, f9, f10, f11, f12, f13, f14, f15, f16⟩)
        else if k = "event_type" then
          setOnce f3 "event_type" (asString v)
            (fun x => readTickFields fs ⟨f1, f2, some x, f4, f5, f6, f7, f8, f9, f10, f11, f12, f13, f14, f15, f16⟩)
        else if k = "stamp" then
          setOnce f4 "stamp" (asF64 v)
            (fun x => readTickFields fs ⟨f1, f2, f3, some x, f5, f6, f7, f8, f9, f10, f11, f12, f13, f14, f15, f16⟩)
        else if k = "interval" then
          setOnce f5 "interval" (asF64 v)
            (fun x => readTickFields fs ⟨f1, f2, f3, f4, some x, f6, f7, f8, f9, f10, f11, f12, f13, f14, f15, f16⟩)
        else if k = "paused" then
          setOnce f6 "paused" (asBool v)
            (fun x => readTickFields fs ⟨f1, f2, f3, f4, f5, some x, f7, f8, f9, f10, f11, f12, f13, f14, f15, f16⟩)
        else if k = "stepping" then
          setOnce f7 "stepping" (asBool v)
            (fun x => readTickFields fs ⟨f1, f2, f3, f4, f5, f6, some x, f8, f9, f10, f11, f12, f13, f14, f15, f16⟩)
        else if k = "start_time" then
          setOnce f8 "start_time" (asF64 v)
            (fun x => readTickFields fs ⟨f1, f2, f3, f4, f5, f6, f7, some x, f9, f10, f11, f12, f13, f14, f15, f16⟩)
        else if k = "namespace" then
          setOnce f9 "namespace" (asString v)
            (fun x => readTickFields fs ⟨f1, f2, f3, f4, f5, f6, f7, f8, some x, f10, f11, f12, f13, f14, f15, f16⟩)
        else if k = "backpressure" then
          setOnce f10 "backpressure" (asBool v)
            (fun x => readTickFields fs ⟨f1, f2, f3, f4, f5, f6, f7, f8, f9, some x, f11, f12, f13, f14, f15, f16⟩)
        else if k = "wall_time" then
          setOnce f11 "wall_time" (asI32List v)
            (fun x => readTickFields fs ⟨f1, f2, f3, f4, f5, f6, f7, f8, f9, f10, some x, f12, f13, f14, f15, f16⟩)
        else if k = "current_choice" then
          setOnce f12 "current_choice" (asOptString v)
            (fun x => readTickFields fs ⟨f1, f2, f3, f4, f5, f6, f7, f8, f9, f10, f11, some x, f13, f14, f15, f16⟩)
        else if k = "transport" then
          setOnce f13 "transport" (asStringList v)
            (fun x => readTickFields fs ⟨f1, f2, f3, f4, f5, f6, f7, f8, f9, f10, f11, f12, some x, f14, f15, f16⟩)
        else if k = "disposition" then
          setOnce f14 "disposition" (asOptString v)
            (fun x => readTickFields fs ⟨f1, f2, f3, f4, f5, f6, f7, f8, f9, f10, f11, f12, f13, some x, f15, f16⟩)
        else if k = "connected" then
          setOnce f15 "connected" (asBool v)
            (fun x => readTickFields fs ⟨f1, f2, f3, f4, f5, f6, f7, f8, f9, f10, f11, f12, f13, f14, some x, f16⟩)
        else if k = "accumulators" then
          setOnce f16 "accumulators" (asAccMap v)
            (fun x => readTickFields fs ⟨f1, f2, f3, f4, f5, f6, f7, f8, f9, f10, f11, f12, f13, f14, f15, some x⟩)
        else readTickFields fs ⟨f1, f2, f3, f4, f5, f6, f7, f8, f9, f10, f11, f12, f13, f14, f15, f16⟩) from rfl]
      rw [if_neg h1, if_neg h2, if_neg h3, if_neg h4, if_neg h5, if_neg h6, if_neg h7, if_neg h8, if_neg h9, if_neg h10, if_neg h11, if_neg h12, if_neg h13, if_neg h14, if_neg h15, if_neg h16, ih]
      have hft : fieldTypeOk k v = true := by
        simp [fieldTypeOk, h1, h2, h3, h4, h5, h6, h7, h8, h9, h10, h11, h12, h13, h14, h15, h16]
      simp [List.forall_mem_cons, hft, h1, h2, h3, h4, h5, h6, h7, h8, h9, h10, h11, h12, h13, h14, h15, h16]


theorem tickFromJson_ok_iff (fs : List (String × Json)) :
    okB (tickFromJson (.obj fs)) = true ↔ TickObjOk fs := by
  rw [show tickFromJson (.obj fs) =
    readTickFields fs ⟨none, none, none, none, none, none, none, none, none, none, none,
      none, none, none, none, none⟩ >>= finishTick from rfl]
  rw [readTick_ok_iff]
  unfold TickObjOk
  simp

/-- C3 (amended): on an object payload, decoding succeeds exactly when every
required field occurs exactly once with a well-typed value and every optional
field occurs at most once with a well-typed value (a duplicated known field is
a `duplicate field` error, which the claim as stated overlooks); a payload
that fails JSON syntax propagates its parse error, and no partial TickEvent is
ever produced. -/
theorem decode_object_wellformedness :
    (∀ fs : List (String × Json), okB (tickFromJson (Json.obj fs)) = true ↔ TickObjOk fs) ∧
    (∀ (bs : List Char) (e : String), parseJson bs = .error e → decode bs = .error e) := by
  constructor
  · exact tickFromJson_ok_iff
  · intro bs e h
    simp [decode, h]

/-- Witness for C3's amended theorem at concrete inputs. -/
theorem decode_object_wellformedness_witness :
    (okB (tickFromJson (Json.obj exampleFields)) = true ↔ TickObjOk exampleFields) ∧
    decode badPayload = .error "unexpected end of input in object" :=
  ⟨decode_object_wellformedness.1 exampleFields,
   decode_object_wellformedness.2 badPayload "unexpected end of input in object" (by rfl)⟩

/-- The required `TickMessage` field names, as listed by the spec. -/
def requiredTickKeys : List String :=
  ["id", "short_id", "event_type", "stamp", "interval", "paused", "stepping", "start_time",
   "namespace", "backpressure", "wall_time", "transport", "connected", "accumulators"]

/-- The hypothesis of C3's success direction as stated: every required field
present (at least one occurrence), every present field well-typed, so in
particular only optional fields may be absent. -/
def RequiredPresentWellTyped (fs : List (String × Json)) : Prop :=
  (∀ k ∈ requiredTickKeys, 1 ≤ keyCount k fs) ∧ (∀ p ∈ fs, fieldTypeOk p.1 p.2 = true)

instance (fs : List (String × Json)) : Decidable (RequiredPresentWellTyped fs) := by
  unfold RequiredPresentWellTyped
  exact inferInstance

/-- An object payload with all required fields present and well-typed, whose
`id` field occurs twice. -/
def dupFieldPayload : List (String × Json) := ("id", .str "a") :: exampleFields

/-- The §8 example payload with the `id` field duplicated, at the byte level. -/
def dupPayloadStr : String := "\x7b\"id\":\"a\",\"id\":\"a\",\"short_id\":\"a1\",\"event_type\":\"tick\",\"stamp\":12.5,\"interval\":0.1,\"paused\":false,\"stepping\":false,\"start_time\":0,\"namespace\":\"ns\",\"backpressure\":false,\"wall_time\":[],\"transport\":[],\"connected\":true,\"accumulators\":\x7b\x7d\x7d"

/-- The duplicated-field payload as a character sequence. -/
def dupPayload : List Char := dupPayloadStr.toList

set_option maxRecDepth 100000 in
/-- Counterexample to C3 as stated: a payload in which only optional fields
are absent and all required fields are present and well-typed, yet decoding
fails — serde rejects the duplicated `id` with a `duplicate field` error. -/
theorem duplicate_field_rejected_despite_wellformed :
    RequiredPresentWellTyped dupFieldPayload ∧
    okB (tickFromJson (Json.obj dupFieldPayload)) = false ∧
    decode dupPayload = .error "duplicate field id" := by
  refine ⟨by decide, by rfl, by decide⟩

/-- JSON form of an `Option<String>` value: `None` serializes to `null`. -/
def optStrJson : Option String → Json
  | none => .null
  | some s => .str s

/-- Modelled from the spec: the repository only derives deserialization, so no
encoder exists under src/; §6 fixes the wire format as a JSON object with
exactly the §3 field set, making this the canonical encoding of one
`AccumulatorData`.  A numeric value is written as an integer literal exactly
when it is integral. -/
def encodeAcc (a : AccumulatorData) : Json :=
  .obj [("interval", .num (decide (a.interval.den = 1)) a.interval),
        ("elapsed", .num (decide (a.elapsed.den = 1)) a.elapsed),
        ("cycles", .num true (a.cycles : ℚ)),
        ("running", .bool a.running),
        ("repeating", .bool a.repeating)]

/-- Modelled from the spec: the canonical JSON encoding of a `TickEvent`, the
object with exactly the §3 field set in declaration order. -/
def encodeTick (e : TickMessage) : Json :=
  .obj [("id", .str e.id), ("short_id", .str e.short_id),
        ("event_type", .str e.event_type),
        ("stamp", .num (decide (e.stamp.den = 1)) e.stamp),
        ("interval", .num (decide (e.interval.den = 1)) e.interval),
        ("paused", .bool e.paused), ("stepping", .bool e.stepping),
        ("start_time", .num (decide (e.start_time.den = 1)) e.start_time),
        ("namespace", .str e.«namespace»), ("backpressure", .bool e.backpressure),
        ("wall_time", .arr (e.wall_time.map fun n : Int => .num true (n : ℚ))),
        ("current_choice", optStrJson e.current_choice),
        ("transport", .arr (e.transport.map .str)),
        ("disposition", optStrJson e.disposition),
        ("connected", .bool e.connected),
        ("accumulators", .obj (e.accumulators.map fun p => (p.1, encodeAcc p.2)))]

@[simp] theorem asF64_num (b : Bool) (q : ℚ) : asF64 (.num b q) = .ok q := rfl

@[simp] theorem asBool_bool (b : Bool) : asBool (.bool b) = .ok b := rfl

@[simp] theorem asString_str (s : String) : asString (.str s) = .ok s := rfl

@[simp] theorem asI32List_arr (xs : List Json) : asI32List (.arr xs) = mapDecode asI32 xs := rfl

@[simp] theorem asStringList_arr (xs : List Json) :
    asStringList (.arr xs) = mapDecode asString xs := rfl

@[simp] theorem asAccMap_obj (fs : List (String × Json)) :
    asAccMap (.obj fs) = readAccEntries [] fs := rfl

@[simp] theorem readAccFields_nil (r : RawAcc) : readAccFields [] r = .ok r := rfl

@[simp] theorem readTickFields_nil (r : RawTick) : readTickFields [] r = .ok r := rfl

theorem acc_step_interval (v : Json) (fs : List (String × Json)) (g2 g3 g4 g5 : _) :
    readAccFields (("interval", v) :: fs) ⟨none, g2, g3, g4, g5⟩ =
      asF64 v >>= fun x => readAccFields fs ⟨some x, g2, g3, g4, g5⟩ := rfl

theorem acc_step_elapsed (v : Json) (fs : List (String × Json)) (g1 g3 g4 g5 : _) :
    readAccFields (("elapsed", v) :: fs) ⟨g1, none, g3, g4, g5⟩ =
      asF64 v >>= fun x => readAccFields fs ⟨g1, some x, g3, g4, g5⟩ := rfl

theorem acc_step_cycles (v : Json) (fs : List (String × Json)) (g1 g2 g4 g5 : _) :
    readAccFields (("cycles", v) :: fs) ⟨g1, g2, none, g4, g5⟩ =
      asU64 v >>= fun x => readAccFields fs ⟨g1, g2, some x, g4, g5⟩ := rfl

theorem acc_step_running (v : Json) (fs : List (String × Json)) (g1 g2 g3 g5 : _) :
    readAccFields (("running", v) :: fs) ⟨g1, g2, g3, none, g5⟩ =
      asBool v >>= fun x => readAccFields fs ⟨g1, g2, g3, some x, g5⟩ := rfl

theorem acc_step_repeating (v : Json) (fs : List (String × Json)) (g1 g2 g3 g4 : _) :
    readAccFields (("repeating", v) :: fs) ⟨g1, g2, g3, g4, none⟩ =
      asBool v >>= fun x => readAccFields fs ⟨g1, g2, g3, g4, some x⟩ := rfl

theorem tick_step_id (v : Json) (fs : List (String × Json))
    (f2 f3 f4 f5 f6 f7 f8 f9 f10 f11 f12 f13 f14 f15 f16 : _) :
    readTickFields (("id", v) :: fs) ⟨none, f2, f3, f4, f5, f6, f7, f8, f9, f10, f11, f12, f13, f14, f15, f16⟩ =
      asString v >>= fun x => readTickFields fs ⟨some x, f2, f3, f4, f5, f6, f7, f8, f9, f10, f11, f12, f13, f14, f15, f16⟩ := rfl

theorem tick_step_short_id (v : Json) (fs : List (String × Json))
    (f1 f3 f4 f5 f6 f7 f8 f9 f10 f11 f12 f13 f14 f15 f16 : _) :
    readTickFields (("short_id", v) :: fs) ⟨f1, none, f3, f4, f5, f6, f7, f8, f9, f10, f11, f12, f13, f14, f15, f16⟩ =
      asString v >>= fun x => readTickFields fs ⟨f1, some x, f3, f4, f5, f6, f7, f8, f9, f10, f11, f12, f13, f14, f15, f16⟩ := rfl

theorem tick_step_event_type (v : Json) (fs : List (String × Json))
    (f1 f2 f4 f5 f6 f7 f8 f9 f10 f11 f12 f13 f14 f15 f16 : _) :
    readTickFields (("event_type", v) :: fs) ⟨f1, f2, none, f4, f5, f6, f7, f8, f9, f10, f11, f12, f13, f14, f15, f16⟩ =
      asString v >>= fun x => readTickFields fs ⟨f1, f2, some x, f4, f5, f6, f7, f8, f9, f10, f11, f12, f13, f14, f15, f16⟩ := rfl

theorem tick_step_stamp (v : Json) (fs : List (String × Json))
    (f1 f2 f3 f5 f6 f7 f8 f9 f10 f11 f12 f13 f14 f15 f16 : _) :
    readTickFields (("stamp", v) :: fs) ⟨f1, f2, f3, none, f5, f6, f7, f8, f9, f10, f11, f12, f13, f14, f15, f16⟩ =
      asF64 v >>= fun x => readTickFields fs ⟨f1, f2, f3, some x, f5, f6, f7, f8, f9, f10, f11, f12, f13, f14, f15, f16⟩ := rfl

theorem tick_step_interval (v : Json) (fs : List (String × Json))
    (f1 f2 f3 f4 f6 f7 f8 f9 f10 f11 f12 f13 f14 f15 f16 : _) :
    readTickFields (("interval", v) :: fs) ⟨f1, f2, f3, f4, none, f6, f7, f8, f9, f10, f11, f12, f13, f14, f15, f16⟩ =
      asF64 v >>= fun x => readTickFields fs ⟨f1, f2, f3, f4, some x, f6, f7, f8, f9, f10, f11, f12, f13, f14, f15, f16⟩ := rfl

theorem tick_step_paused (v : Json) (fs : List (String × Json))
    (f1 f2 f3 f4 f5 f7 f8 f9 f10 f11 f12 f13 f14 f15 f16 : _) :
    readTickFields (("paused", v) :: fs) ⟨f1, f2, f3, f4, f5, none, f7, f8, f9, f10, f11, f12, f13, f14, f15, f16⟩ =
      asBool v >>= fun x => readTickFields fs ⟨f1, f2, f3, f4, f5, some x, f7, f8, f9, f10, f11, f12, f13, f14, f15, f16⟩ := rfl

theorem tick_step_stepping (v : Json) (fs : List (String × Json))
    (f1 f2 f3 f4 f5 f6 f8 f9 f10 f11 f12 f13 f14 f15 f16 : _) :
    readTickFields (("stepping", v) :: fs) ⟨f1, f2, f3, f4, f5, f6, none, f8, f9, f10, f11, f12, f13, f14, f15, f16⟩ =
      asBool v >>= fun x => readTickFields fs ⟨f1, f2, f3, f4, f5, f6, some x, f8, f9, f10, f11, f12, f13, f14, f15, f16⟩ := rfl

theorem tick_step_start_time (v : Json) (fs : List (String × Json))
    (f1 f2 f3 f4 f5 f6 f7 f9 f10 f11 f12 f13 f14 f15 f16 : _) :
    readTickFields (("start_time", v) :: fs) ⟨f1, f2, f3, f4, f5, f6, f7, none, f9, f10, f11, f12, f13, f14, f15, f16⟩ =
      asF64 v >>= fun x => readTickFields fs ⟨f1, f2, f3, f4, f5, f6, f7, some x, f9, f10, f11, f12, f13, f14, f15, f16⟩ := rfl

theorem tick_step_namespace (v : Json) (fs : List (String × Json))
    (f1 f2 f3 f4 f5 f6 f7 f8 f10 f11 f12 f13 f14 f15 f16 : _) :
    readTickFields (("namespace", v) :: fs) ⟨f1, f2, f3, f4, f5, f6, f7, f8, none, f10, f11, f12, f13, f14, f15, f16⟩ =
      asString v >>= fun x => readTickFields fs ⟨f1, f2, f3, f4, f5, f6, f7, f8, some x, f10, f11, f12, f13, f14, f15, f16⟩ := rfl

theorem tick_step_backpressure (v : Json) (fs : List (String × Json))
    (f1 f2 f3 f4 f5 f6 f7 f8 f9 f11 f12 f13 f14 f15 f16 : _) :
    readTickFields (("backpressure", v) :: fs) ⟨f1, f2, f3, f4, f5, f6, f7, f8, f9, none, f11, f12, f13, f14, f15, f16⟩ =
      asBool v >>= fun x => readTickFields fs ⟨f1, f2, f3, f4, f5, f6, f7, f8, f9, some x, f11, f12, f13, f14, f15, f16⟩ := rfl

theorem tick_step_wall_time (v : Json) (fs : List (String × Json))
    (f1 f2 f3 f4 f5 f6 f7 f8 f9 f10 f12 f13 f14 f15 f16 : _) :
    readTickFields (("wall_time", v) :: fs) ⟨f1, f2, f3, f4, f5, f6, f7, f8, f9, f10, none, f12, f13, f14, f15, f16⟩ =
      asI32List v >>= fun x => readTickFields fs ⟨f1, f2, f3, f4, f5, f6, f7, f8, f9, f10, some x, f12, f13, f14, f15, f16⟩ := rfl

theorem tick_step_current_choice (v : Json) (fs : List (String × Json))
    (f1 f2 f3 f4 f5 f6 f7 f8 f9 f10 f11 f13 f14 f15 f16 : _) :
    readTickFields (("current_choice", v) :: fs) ⟨f1, f2, f3, f4, f5, f6, f7, f8, f9, f10, f11, none, f13, f14, f15, f16⟩ =
      asOptString v >>= fun x => readTickFields fs ⟨f1, f2, f3, f4, f5, f6, f7, f8, f9, f10, f11, some x, f13, f14, f15, f16⟩ := rfl

theorem tick_step_transport (v : Json) (fs : List (String × Json))
    (f1 f2 f3 f4 f5 f6 f7 f8 f9 f10 f11 f12 f14 f15 f16 : _) :
    readTickFields (("transport", v) :: fs) ⟨f1, f2, f3, f4, f5, f6, f7, f8, f9, f10, f11, f12, none, f14, f15, f16⟩ =
      asStringList v >>= fun x => readTickFields fs ⟨f1, f2, f3, f4, f5, f6, f7, f8, f9, f10, f11, f12, some x, f14, f15, f16⟩ := rfl

theorem tick_step_disposition (v : Json) (fs : List (String × Json))
    (f1 f2 f3 f4 f5 f6 f7 f8 f9 f10 f11 f12 f13 f15 f16 : _) :
    readTickFields (("disposition", v) :: fs) ⟨f1, f2, f3, f4, f5, f6, f7, f8, f9, f10, f11, f12, f13, none, f15, f16⟩ =
      asOptString v >>= fun x => readTickFields fs ⟨f1, f2, f3, f4, f5, f6, f7, f8, f9, f10, f11, f12, f13, some x, f15, f16⟩ := rfl

theorem tick_step_connected (v : Json) (fs : List (String × Json))
    (f1 f2 f3 f4 f5 f6 f7 f8 f9 f10 f11 f12 f13 f14 f16 : _) :
    readTickFields (("connected", v) :: fs) ⟨f1, f2, f3, f4, f5, f6, f7, f8, f9, f10, f11, f12, f13, f14, none, f16⟩ =
      asBool v >>= fun x => readTickFields fs ⟨f1, f2, f3, f4, f5, f6, f7, f8, f9, f10, f11, f12, f13, f14, some x, f16⟩ := rfl

theorem tick_step_accumulators (v : Json) (fs : List (String × Json))
    (f1 f2 f3 f4 f5 f6 f7 f8 f9 f10 f11 f12 f13 f14 f15 : _) :
    readTickFields (("accumulators", v) :: fs) ⟨f1, f2, f3, f4, f5, f6, f7, f8, f9, f10, f11, f12, f13, f14, f15, none⟩ =
      asAccMap v >>= fun x => readTickFields fs ⟨f1, f2, f3, f4, f5, f6, f7, f8, f9, f10, f11, f12, f13, f14, f15, some x⟩ := rfl


theorem asOptString_optStrJson (o : Option String) : asOptString (optStrJson o) = .ok o := by
  cases o <;> rfl

theorem mapDecode_encode_i32 (l : List Int)
    (h : ∀ n ∈ l, -(2 ^ 31) ≤ n ∧ n < 2 ^ 31) :
    mapDecode asI32 (l.map fun n : Int => Json.num true (n : ℚ)) = .ok l := by
  induction l with
  | nil => rfl
  | cons n l ih =>
    have hh := h n (List.mem_cons_self _ _)
    have hd : ((n : ℚ)).den = 1 := Rat.den_intCast n
    have hm : ((n : ℚ)).num = n := Rat.num_intCast n
    have hn : asI32 (Json.num true (n : ℚ)) = .ok n := by
      rw [show asI32 (Json.num true (n : ℚ)) =
        (if ((n : ℚ)).den = 1 ∧ -(2 ^ 31) ≤ ((n : ℚ)).num ∧ ((n : ℚ)).num < 2 ^ 31 then
          .ok ((n : ℚ)).num
        else .error "invalid value: out of range for i32") from rfl]
      rw [if_pos ⟨hd, by rw [hm]; exact hh.1, by rw [hm]; exact hh.2⟩, hm]
    rw [List.map_cons]
    rw [show mapDecode asI32
        (Json.num true (n : ℚ) :: l.map fun m : Int => Json.num true (m : ℚ)) =
      asI32 (Json.num true (n : ℚ)) >>= fun y =>
        mapDecode asI32 (l.map fun m : Int => Json.num true (m : ℚ)) >>= fun ys =>
          .ok (y :: ys) from rfl]
    rw [hn, except_bind_ok, ih fun m hm2 => h m (List.mem_cons_of_mem _ hm2),
      except_bind_ok]

theorem mapDecode_encode_str (l : List String) :
    mapDecode asString (l.map Json.str) = .ok l := by
  induction l with
  | nil => rfl
  | cons s l ih => simp [mapDecode, asString, ih]

theorem accFromJson_encodeAcc (a : AccumulatorData) (h : a.cycles < 2 ^ 64) :
    accFromJson (encodeAcc a) = .ok a := by
  rcases a with ⟨i, e, c, r, p⟩
  simp only at h
  have hd : ((c : ℚ)).den = 1 := Rat.den_natCast c
  have hm : ((c : ℚ)).num = (c : Int) := Rat.num_natCast c
  have hcy : asU64 (Json.num true (c : ℚ)) = .ok c := by
    rw [show asU64 (Json.num true (c : ℚ)) =
      (if ((c : ℚ)).den = 1 ∧ 0 ≤ ((c : ℚ)).num ∧ ((c : ℚ)).num < 2 ^ 64 then
        .ok ((c : ℚ)).num.toNat
      else .error "invalid value: out of range for u64") from rfl]
    rw [if_pos ⟨hd, by rw [hm]; exact Int.natCast_nonneg c, by rw [hm]; exact_mod_cast h⟩]
    rw [hm]
    simp
  rw [show accFromJson (encodeAcc ⟨i, e, c, r, p⟩) =
    readAccFields [("interval", .num (decide (i.den = 1)) i),
      ("elapsed", .num (decide (e.den = 1)) e), ("cycles", .num true (c : ℚ)),
      ("running", .bool r), ("repeating", .bool p)]
      ⟨none, none, none, none, none⟩ >>= finishAcc from rfl]
  simp only [acc_step_interval, acc_step_elapsed, acc_step_cycles, acc_step_running,
    acc_step_repeating, asF64_num, asBool_bool, hcy, except_bind_ok, readAccFields_nil]
  rfl

theorem insertEntry_append (m : List (String × AccumulatorData)) (k : String)
    (a : AccumulatorData) (h : ∀ p ∈ m, p.1 ≠ k) :
    insertEntry m k a = m ++ [(k, a)] := by
  induction m with
  | nil => rfl
  | cons q m ih =>
    obtain ⟨k2, a2⟩ := q
    have hk : k2 ≠ k := h (k2, a2) (List.mem_cons_self _ _)
    simp [insertEntry, hk, ih fun p hp => h p (List.mem_cons_of_mem _ hp)]

theorem readAccEntries_encode (l : List (String × AccumulatorData))
    (m : List (String × AccumulatorData))
    (hcy : ∀ p ∈ l, p.2.cycles < 2 ^ 64)
    (hnd : (l.map Prod.fst).Nodup)
    (hdisj : ∀ p ∈ l, ∀ q ∈ m, q.1 ≠ p.1) :
    readAccEntries m (l.map fun p => (p.1, encodeAcc p.2)) = .ok (m ++ l) := by
  induction l generalizing m with
  | nil => simp [readAccEntries]
  | cons p l ih =>
    obtain ⟨k, a⟩ := p
    have ha : accFromJson (encodeAcc a) = .ok a :=
      accFromJson_encodeAcc a (hcy (k, a) (List.mem_cons_self _ _))
    rw [List.map_cons]
    rw [show readAccEntries m ((k, encodeAcc a) :: l.map fun p => (p.1, encodeAcc p.2)) =
      accFromJson (encodeAcc a) >>= fun x =>
        readAccEntries (insertEntry m k x) (l.map fun p => (p.1, encodeAcc p.2)) from rfl]
    rw [ha, except_bind_ok]
    rw [insertEntry_append m k a fun p hp => hdisj (k, a) (List.mem_cons_self _ _) p hp]
    rw [List.map_cons] at hnd
    have hk : k ∉ l.map Prod.fst := (List.nodup_cons.mp hnd).1
    have hdisj2 : ∀ p ∈ l, ∀ q ∈ m ++ [(k, a)], q.1 ≠ p.1 := by
      intro p hp q hq
      rcases List.mem_append.mp hq with hq1 | hq2
      · exact hdisj p (List.mem_cons_of_mem _ hp) q hq1
      · rw [List.mem_singleton.mp hq2]
        intro hcontra
        refine hk ?_
        rw [show k = p.1 from hcontra]
        exact List.mem_map_of_mem Prod.fst hp
    rw [ih (m ++ [(k, a)]) (fun p hp => hcy p (List.mem_cons_of_mem _ hp))
      (List.nodup_cons.mp hnd).2 hdisj2]
    simp

/-- C8: decoding the canonical encoding of a valid tick event (wall-time
entries in i32 range, cycle counts in u64 range, accumulator keys distinct as
in any HashMap) yields the event back with every field preserved exactly. -/
theorem decode_encode_roundtrip (e : TickMessage)
    (hwt : ∀ n ∈ e.wall_time, -(2 ^ 31) ≤ n ∧ n < 2 ^ 31)
    (hcy : ∀ p ∈ e.accumulators, p.2.cycles < 2 ^ 64)
    (hnd : (e.accumulators.map Prod.fst).Nodup) :
    tickFromJson (encodeTick e) = .ok e := by
  rcases e with ⟨x1, x2, x3, x4, x5, x6, x7, x8, x9, x10, x11, x12, x13, x14, x15, x16⟩
  simp only at hwt hcy hnd
  have hwtl : mapDecode asI32 (x11.map fun n : Int => Json.num true (n : ℚ)) = .ok x11 :=
    mapDecode_encode_i32 x11 hwt
  have htr : mapDecode asString (x13.map Json.str) = .ok x13 := mapDecode_encode_str x13
  have hcc : asOptString (optStrJson x12) = .ok x12 := asOptString_optStrJson x12
  have hdp : asOptString (optStrJson x14) = .ok x14 := asOptString_optStrJson x14
  have hac : readAccEntries [] (x16.map fun p => (p.1, encodeAcc p.2)) = .ok x16 := by
    have hre := readAccEntries_encode x16 [] hcy hnd (by intro p hp q hq; cases hq)
    simpa using hre
  rw [show tickFromJson (encodeTick ⟨x1, x2, x3, x4, x5, x6, x7, x8, x9, x10, x11, x12, x13, x14, x15, x16⟩) =
    readTickFields [("id", .str x1), ("short_id", .str x2), ("event_type", .str x3), ("stamp", .num (decide (x4.den = 1)) x4), ("interval", .num (decide (x5.den = 1)) x5), ("paused", .bool x6), ("stepping", .bool x7), ("start_time", .num (decide (x8.den = 1)) x8), ("namespace", .str x9), ("backpressure", .bool x10), ("wall_time", .arr (x11.map fun n : Int => .num true (n : ℚ))), ("current_choice", optStrJson x12), ("transport", .arr (x13.map Json.str)), ("disposition", optStrJson x14), ("connected", .bool x15), ("accumulators", .obj (x16.map fun p => (p.1, encodeAcc p.2)))]
      ⟨none, none, none, none, none, none, none, none, none, none, none, none, none, none, none, none⟩ >>= finishTick from rfl]
  simp only [tick_step_id, tick_step_short_id, tick_step_event_type, tick_step_stamp, tick_step_interval, tick_step_paused, tick_step_stepping, tick_step_start_time, tick_step_namespace, tick_step_backpressure, tick_step_wall_time, tick_step_current_choice, tick_step_transport, tick_step_disposition, tick_step_connected, tick_step_accumulators, asString_str, asF64_num, asBool_bool,
    asI32List_arr, asStringList_arr, asAccMap_obj, hwtl, htr, hcc, hdp, hac,
    except_bind_ok, readTickFields_nil]
  rfl

/-- A concrete tick exercising every field shape for the round-trip. -/
def roundTick : TickMessage :=
  ⟨"x", "x1", "tick", mkRat 1 3, mkRat 1 10, true, false, 0, "ns", true, [3, -5],
    some "choice", ["nats"], none, false, [("acc", ⟨mkRat 1 2, 0, 7, true, false⟩)]⟩

/-- Witness for C8 at a concrete tick event. -/
theorem decode_encode_roundtrip_witness :
    tickFromJson (encodeTick roundTick) = .ok roundTick :=
  decode_encode_roundtrip roundTick (by decide) (by decide) (by decide)


end Plantangenet
